import Mathlib

/-!
# LED matrix firmware (`matrix.c`): animation engine

A shallow embedding of the firmware's animation and render engine.  The
microcontroller's `uint8_t` and `uint16_t` variables are natural numbers,
reduced modulo `2^8` or `2^16` at every place where the C code can lose
bits.  The global variables of the C file, together with the function-local
`static` of `starfield`, form the record `State`; every C function that
writes globals is a function from `State` to `State`.
-/

namespace LedMatrix

/-! ## Data model -/

/-- The three update callbacks that occur in the program table (`update_fun`);
a `NULL` callback is `none` in `ProgramDef.update`. -/
inductive UpdateFun where
  | h_move
  | v_move
  | starfield
  deriving DecidableEq

/-- The C `struct program_def`.  `frames` is the array the `frames` pointer
refers to; the `NULL` pointer of the starfield entry is the empty list. -/
structure ProgramDef where
  n_frames : Nat
  frame_wait : Nat
  update : Option UpdateFun
  frames : List Nat
  deriving DecidableEq

/-- The global variables of `matrix.c` (`prog` ... `button_debounce` are
`uint8_t`, `fb` and `lfsr` are `uint16_t`) and the `static uint8_t state` of
`starfield`, here `star_state`. -/
@[ext]
structure State where
  prog : Nat
  wait : Nat
  frame : Nat
  x_shift : Nat
  y_shift : Nat
  button_state : Nat
  button_debounce : Nat
  fb : Nat
  lfsr : Nat
  star_state : Nat
  deriving DecidableEq

/-! ## Frame data and program table -/

/-- The array `circle`. -/
def circle : List Nat := [0b0110 <<< 12 ||| 0b1001 <<< 8 ||| 0b1001 <<< 4 ||| 0b0110]

/-- The array `X`. -/
def X : List Nat := [0b1001 <<< 12 ||| 0b0110 <<< 8 ||| 0b0110 <<< 4 ||| 0b1001]

/-- The array `v_line`. -/
def v_line : List Nat := [0b0001 <<< 12 ||| 0b0001 <<< 8 ||| 0b0001 <<< 4 ||| 0b0001]

/-- The array `h_line`. -/
def h_line : List Nat := [0b1111 <<< 12 ||| 0b0000 <<< 8 ||| 0b0000 <<< 4 ||| 0b0000]

/-- The array `chevron_right`. -/
def chevron_right : List Nat := [0b0001 <<< 12 ||| 0b0010 <<< 8 ||| 0b0010 <<< 4 ||| 0b0001]

/-- The array `pulse` (six frames). -/
def pulse : List Nat :=
  [ 0b0000 <<< 12 ||| 0b0000 <<< 8 ||| 0b0100 <<< 4 ||| 0b0000,
    0b0000 <<< 12 ||| 0b0010 <<< 8 ||| 0b0100 <<< 4 ||| 0b0000,
    0b0000 <<< 12 ||| 0b0110 <<< 8 ||| 0b0110 <<< 4 ||| 0b0000,
    0b0010 <<< 12 ||| 0b1110 <<< 8 ||| 0b0111 <<< 4 ||| 0b0100,
    0b0110 <<< 12 ||| 0b1111 <<< 8 ||| 0b1111 <<< 4 ||| 0b0110,
    0b1111 <<< 12 ||| 0b1111 <<< 8 ||| 0b1111 <<< 4 ||| 0b1111 ]

/-- The table `programs`. -/
def programs : List ProgramDef :=
  [ ⟨0x81, 255, none, circle⟩,
    ⟨0x81, 255, none, X⟩,
    ⟨0x84, 70, some UpdateFun.h_move, v_line⟩,
    ⟨0x84, 70, some UpdateFun.v_move, h_line⟩,
    ⟨0x83, 50, some UpdateFun.h_move, chevron_right⟩,
    ⟨0x06, 20, none, pulse⟩,
    ⟨0x80, 20, some UpdateFun.starfield, []⟩ ]

/-- The constant `N_PROGRAMS`. -/
def N_PROGRAMS : Nat := 7

/-- The entry `programs[i]`.  The C code reads flash memory behind the table
when `i ≥ N_PROGRAMS`; that read is not modelled, the entry returned for it
here is a placeholder that no reachable state ever selects. -/
def program (i : Nat) : ProgramDef := programs.getD i ⟨0, 0, none, []⟩

/-- The frame count of program `i`: `n_frames & 0x7F` of `programs[i]`. -/
def frameCount (i : Nat) : Nat := (program i).n_frames &&& 0x7F

/-- The virtual flag of program `i`: `n_frames & 0x80` of `programs[i]`. -/
def virtualFlag (i : Nat) : Nat := (program i).n_frames &&& 0x80

/-! ## Update callbacks -/

/-- The function `h_move`. -/
def h_move (s : State) (frame_no : Nat) : State := { s with x_shift := frame_no }

/-- The function `v_move`. -/
def v_move (s : State) (frame_no : Nat) : State := { s with y_shift := frame_no }

/-- The body of `lfsr_step` on the 16-bit register value. -/
def lfsr_next (l : Nat) : Nat :=
  let lsb := l &&& 1
  let l := l >>> 1
  if lsb ≠ 0 then l ^^^ 0xb400 else l

/-- The function `lfsr_step`. -/
def lfsr_step (s : State) : State := { s with lfsr := lfsr_next s.lfsr }

/-- The function `starfield`.  `1 << (lfsr & 0xF)` is stored into the 16-bit
`fb`, hence the reduction modulo `2^16`; `state++` is an 8-bit increment. -/
def starfield (s : State) (_frame_no : Nat) : State :=
  let s :=
    if s.star_state = 0 then
      let s := { s with fb := (1 <<< (s.lfsr &&& 0xF)) % 65536 }
      lfsr_step (lfsr_step (lfsr_step (lfsr_step s)))
    else if s.star_state = 1 then
      { s with fb := 0 }
    else s
  let s := { s with star_state := (s.star_state + 1) % 256 }
  if s.star_state = 5 then { s with star_state := 0 } else s

/-- A call through the `update_fun` pointer. -/
def callUpdate (u : UpdateFun) (s : State) (frame_no : Nat) : State :=
  match u with
  | UpdateFun.h_move => h_move s frame_no
  | UpdateFun.v_move => v_move s frame_no
  | UpdateFun.starfield => starfield s frame_no

/-! ## Render block of the main loop -/

/-- The assignment `row = (row >> (4 - x_shift)) | ((row << x_shift) & 0xF)`
of the render loop, the result stored in a `uint8_t`.  For `x_shift > 4` the
C shift count is negative (undefined); the truncated subtraction used here is
meaningful for `x_shift ≤ 4` only. -/
def rotateRow (row x_shift : Nat) : Nat :=
  ((row >>> (4 - x_shift)) ||| ((row <<< x_shift) &&& 0xF)) % 256

/-- The value of the local `row` at the end of one pass of the render loop
(before it is merged into `fb`): the source row `ty = (y + y_shift) % 4` of
`f`, extracted by `f >> (4 * ty) & 0xF`, then rotated. -/
def renderRow (f x_shift y_shift y : Nat) : Nat :=
  let ty := ((y + y_shift) % 4) % 256
  let row := ((f >>> (4 * ty)) &&& 0xF) % 256
  rotateRow row x_shift

/-- One pass of the render loop: `fb <<= 4; fb |= row;` on the 16-bit `fb`. -/
def renderStep (f x_shift y_shift : Nat) (fb y : Nat) : Nat :=
  ((fb <<< 4) % 65536) ||| renderRow f x_shift y_shift y

/-- The render loop `for (y = 0; y < 4; y++)`: the new value of `fb`, from
its old value `fb`, the source frame `f` and the two shifts. -/
def render (fb f x_shift y_shift : Nat) : Nat :=
  [0, 1, 2, 3].foldl (renderStep f x_shift y_shift) fb

/-- The index of the frame the render block reads: `virtual ? 0 : frame`. -/
def frameIndex (s : State) : Nat :=
  if virtualFlag s.prog ≠ 0 then 0 else s.frame

/-- The source frame `f` read by `pgm_read_word(frames + index)`.  A read
behind the end of the array is not modelled (placeholder `0`). -/
def sourceFrame (s : State) : Nat :=
  (program s.prog).frames.getD (frameIndex s) 0

/-- The render block `if (n_frames > 0) { ... }` of the main loop. -/
def renderBlock (s : State) : State :=
  if frameCount s.prog > 0 then
    { s with fb := render s.fb (sourceFrame s) s.x_shift s.y_shift }
  else s

/-! ## Display scan -/

/-- The byte passed to `set595` for row `y` of the display scan:
`col | row` with `col = (~(1 << y) & 0xF) << 4` and
`row = (fb >> (4*y)) & 0xF`, both stored in a `uint8_t`. -/
def scanWord (fb y : Nat) : Nat :=
  let col := (((15 ^^^ ((1 <<< y) &&& 0xF)) &&& 0xF) <<< 4) % 256
  let row := ((fb >>> (4 * y)) &&& 0xF) % 256
  col ||| row

/-! ## Main loop and button handler -/

/-- The debounce countdown at the top of the main loop. -/
def debounceCountdown (s : State) : State :=
  if s.button_debounce > 0 then { s with button_debounce := s.button_debounce - 1 } else s

/-- The frame advance `frame++; if (frame == n_frames) frame = 0;` on the
8-bit `frame`: the new value of `frame`. -/
def nextFrame (frame n_frames : Nat) : Nat :=
  let frame := (frame + 1) % 256
  if frame = n_frames then 0 else frame

/-- The part of the main loop behind the wait countdown: the render block,
the frame advance, the update callback called with the new `frame`, and the
reload of `wait`. -/
def advance (s : State) : State :=
  let n_frames := frameCount s.prog
  let s := renderBlock s
  let s := { s with frame := nextFrame s.frame n_frames }
  let s :=
    match (program s.prog).update with
    | none => s
    | some u => callUpdate u s s.frame
  { s with wait := (program s.prog).frame_wait }

/-- One pass of the `while (1)` loop of `main` (a scheduler tick): the display
scan (which writes no global), the debounce countdown, the wait countdown with
its `continue`, and otherwise the rest of the loop body. -/
def tick (s : State) : State :=
  let s := debounceCountdown s
  if s.wait > 0 then
    if s.wait < 255 then { s with wait := s.wait - 1 } else s
  else advance s

/-- The program switch `prog++; if (prog == N_PROGRAMS) prog = 0;` on the
8-bit `prog`: the new value of `prog`. -/
def nextProg (prog : Nat) : Nat :=
  let prog := (prog + 1) % 256
  if prog = N_PROGRAMS then 0 else prog

/-- The local `pressed` of `button_check`: `button_state & ~current_state`
with `current_state = PINB & 0b00001000`; `pinb` is the value read from the
input register `PINB`.  `~current_state` is taken on 8 bits, which is all
that `button_state &` keeps of it. -/
def pressed (s : State) (pinb : Nat) : Nat :=
  let current_state := pinb &&& 0b00001000
  s.button_state &&& (255 ^^^ current_state)

/-- The function `button_check`, called from the pin-change interrupt with
`pinb` the value of `PINB`; `_BV(PB3)` is 8. -/
def button_check (s : State) (pinb : Nat) : State :=
  if s.button_debounce > 0 then s
  else
    let current_state := pinb &&& 0b00001000
    let s :=
      if pressed s pinb &&& 8 ≠ 0 then
        { s with prog := nextProg s.prog, wait := 0, frame := 0, x_shift := 0, y_shift := 0,
                 button_debounce := 30 }
      else s
    { s with button_state := current_state }

/-- A call of `button_check` recognises a press when it is outside the
lockout and takes the branch `if (pressed & _BV(PB3))`. -/
def pressRecognised (s : State) (pinb : Nat) : Prop :=
  s.button_debounce = 0 ∧ pressed s pinb &&& 8 ≠ 0

instance pressRecognised.decidable (s : State) (pinb : Nat) :
    Decidable (pressRecognised s pinb) := by
  unfold pressRecognised
  infer_instance

/-- The state when the main loop is entered: zero-initialised globals, the
assignments at the top of `main`, and the initialiser `0xcafe` of `lfsr`. -/
def boot : State :=
  { prog := 0, wait := 0, frame := 0, x_shift := 0, y_shift := 0,
    button_state := 0, button_debounce := 0, fb := 0, lfsr := 0xcafe, star_state := 0 }

/-- What can happen to the state: a pass of the main loop, or a call of
`button_check` that reads `pinb` from the input register.  Events are taken
whole: an interrupt in the middle of a pass is not part of this model. -/
inductive Event where
  | tick
  | button (pinb : Nat)
  deriving DecidableEq

/-- The effect of one event. -/
def step (s : State) : Event → State
  | Event.tick => tick s
  | Event.button pinb => button_check s pinb

/-- The effect of a sequence of events, oldest first. -/
def run (s : State) (evs : List Event) : State := evs.foldl step s

/-- The states the firmware can be in: those a sequence of events leads to
from `boot`. -/
def Reachable (s : State) : Prop := ∃ evs : List Event, s = run boot evs

/-- No call of `button_check` in the run of `evs` from `s` recognises a
press. -/
def noPress : State → List Event → Prop
  | _, [] => True
  | s, Event.tick :: evs => noPress (tick s) evs
  | s, Event.button pinb :: evs => ¬ pressRecognised s pinb ∧ noPress (button_check s pinb) evs

instance noPress.decidable : (s : State) → (evs : List Event) → Decidable (noPress s evs)
  | _, [] => isTrue trivial
  | s, Event.tick :: evs => noPress.decidable (tick s) evs
  | s, Event.button pinb :: evs =>
    @instDecidableAnd _ _ _ (noPress.decidable (button_check s pinb) evs)

/-- The range invariant of the scheduling variables: `prog` indexes the
table, `frame` is below the frame count when the program has frames (and is
an 8-bit value in any case), and both shifts are at most 3. -/
def InRange (s : State) : Prop :=
  s.prog < N_PROGRAMS ∧ (0 < frameCount s.prog → s.frame < frameCount s.prog) ∧
    s.frame < 256 ∧ s.x_shift ≤ 3 ∧ s.y_shift ≤ 3

instance InRange.decidable (s : State) : Decidable (InRange s) := by
  unfold InRange
  infer_instance

/-- A press of the button followed by the full lockout: the pin is read high,
then low, then the main loop runs 30 times. -/
def pressAndSettle : List Event :=
  Event.button 8 :: Event.button 0 :: List.replicate 30 Event.tick

/-- Six presses of the button, the first five each followed by the lockout:
the events that select the starfield program after boot. -/
def sixPresses : List Event :=
  pressAndSettle ++ pressAndSettle ++ pressAndSettle ++ pressAndSettle ++ pressAndSettle
    ++ [Event.button 8, Event.button 0]

/-- The index of the frame that a pass of the main loop starting in `s` reads
with `pgm_read_word(frames + (virtual ? 0 : frame))`, if it reads one: the
pass reaches the render block when `wait` is 0 (no `continue`), and the block
reads a frame when `n_frames > 0`. -/
def frameRead (s : State) : Option Nat :=
  if s.wait = 0 ∧ 0 < frameCount s.prog then some (frameIndex s) else none

/-- The state after `n` passes of the main loop. -/
def ticks : Nat → State → State
  | 0, s => s
  | n + 1, s => ticks n (tick s)

/-! ## Arithmetic of the render loop -/

/-- On a 4-bit row and a shift below 4, `rotateRow` moves bit `i` to bit
`(i + k) % 4`. -/
theorem rotateRow_testBit : ∀ r < 16, ∀ k < 4, ∀ i < 4,
    (rotateRow r k).testBit ((i + k) % 4) = r.testBit i := by
  decide

/-- Rotating by `k` and then by `(4 - k) % 4` gives the row back. -/
theorem rotateRow_inverse : ∀ r < 16, ∀ k < 4, rotateRow (rotateRow r k) ((4 - k) % 4) = r := by
  decide

/-- A rotation by zero changes nothing. -/
theorem rotateRow_zero : ∀ r < 16, rotateRow r 0 = r := by
  decide

/-- The rotated row fits in four bits, for every shift. -/
theorem rotateRow_lt (r k : Nat) (h : r < 16) : rotateRow r k < 16 := by
  have h1 : r >>> (4 - k) < 2 ^ 4 := by
    rw [Nat.shiftRight_eq_div_pow]
    exact lt_of_le_of_lt (Nat.div_le_self _ _) h
  have h2 : (r <<< k) &&& 0xF < 2 ^ 4 := lt_of_le_of_lt Nat.and_le_right (by norm_num)
  have h3 := Nat.or_lt_two_pow h1 h2
  have h4 : rotateRow r k ≤ (r >>> (4 - k)) ||| ((r <<< k) &&& 0xF) := Nat.mod_le _ _
  omega

theorem and_fifteen (a : Nat) : a &&& 0xF = a % 16 := Nat.and_pow_two_sub_one_eq_mod a 4

/-- The row computed by one pass of the render loop, in arithmetic form. -/
theorem renderRow_eq (f xs ys y : Nat) :
    renderRow f xs ys y = rotateRow ((f / 2 ^ (4 * ((y + ys) % 4))) % 16) xs := by
  have hty : ((y + ys) % 4) % 256 = (y + ys) % 4 := by omega
  have hr : (f / 2 ^ (4 * ((y + ys) % 4))) % 16 % 256 = (f / 2 ^ (4 * ((y + ys) % 4))) % 16 := by
    omega
  simp only [renderRow, hty, and_fifteen, Nat.shiftRight_eq_div_pow f, hr]

theorem renderRow_lt (f xs ys y : Nat) : renderRow f xs ys y < 16 := by
  rw [renderRow_eq]
  exact rotateRow_lt _ _ (Nat.mod_lt _ (by norm_num))

theorem shl4_or (a r : Nat) (h : r < 16) : ((a <<< 4) % 65536) ||| r = 16 * (a % 4096) + r := by
  have h1 : (a <<< 4) % 65536 = 2 ^ 4 * (a % 4096) := by
    rw [Nat.shiftLeft_eq]; omega
  rw [h1, ← Nat.mul_add_lt_is_or (by simpa using h)]

/-- The framebuffer after the render loop: the row of pass 0 in the top
nibble, the row of pass 3 in the bottom nibble, nothing left of the old
value. -/
theorem render_eq (fb f xs ys : Nat) :
    render fb f xs ys =
      4096 * renderRow f xs ys 0 + 256 * renderRow f xs ys 1
        + 16 * renderRow f xs ys 2 + renderRow f xs ys 3 := by
  have h0 := renderRow_lt f xs ys 0
  have h1 := renderRow_lt f xs ys 1
  have h2 := renderRow_lt f xs ys 2
  have h3 := renderRow_lt f xs ys 3
  simp only [render, List.foldl, renderStep]
  rw [shl4_or _ _ h0, shl4_or _ _ h1, shl4_or _ _ h2, shl4_or _ _ h3]
  omega

/-- Bit `4k + j` of a number is bit `j` of its nibble `k`. -/
theorem testBit_nibble (n k j : Nat) (hj : j < 4) :
    n.testBit (4 * k + j) = ((n / 2 ^ (4 * k)) % 16).testBit j := by
  have h16 : (16 : Nat) = 2 ^ 4 := rfl
  rw [h16, Nat.testBit_mod_two_pow, ← Nat.shiftRight_eq_div_pow, Nat.testBit_shiftRight]
  simp [hj]

/-- Nibble `3 - y` of the rendered framebuffer is the row of pass `y`. -/
theorem render_nibble (fb f xs ys y : Nat) (hy : y ≤ 3) :
    (render fb f xs ys / 2 ^ (4 * (3 - y))) % 16 = renderRow f xs ys y := by
  have h0 := renderRow_lt f xs ys 0
  have h1 := renderRow_lt f xs ys 1
  have h2 := renderRow_lt f xs ys 2
  have h3 := renderRow_lt f xs ys 3
  rw [render_eq]
  interval_cases y <;> norm_num <;> omega

/-- C1 (amended): after the render loop, bit `(i + x_shift) % 4` of
framebuffer row `3 - y` is bit `i` of row `(y + y_shift) % 4` of the source
frame: the row of pass `y`, rotated left by `x_shift`, lands in bits
`4(3-y) .. 4(3-y)+3`, for every previous framebuffer value. -/
theorem render_row_placement (fb f x_shift y_shift y i : Nat)
    (hx : x_shift ≤ 3) (hy : y ≤ 3) (hi : i ≤ 3) :
    (render fb f x_shift y_shift).testBit (4 * (3 - y) + (i + x_shift) % 4)
      = f.testBit (4 * ((y + y_shift) % 4) + i) := by
  rw [testBit_nibble _ (3 - y) _ (Nat.mod_lt _ (by norm_num)),
    testBit_nibble f _ i (by omega), render_nibble _ _ _ _ _ hy, renderRow_eq]
  exact rotateRow_testBit _ (Nat.mod_lt _ (by norm_num)) x_shift (by omega) i (by omega)

theorem render_row_placement_witness :
    (1 ≤ 3 ∧ 1 ≤ 3 ∧ 0 ≤ 3) ∧
    (render 0 0xF000 1 2).testBit (4 * (3 - 1) + (0 + 1) % 4)
      = (0xF000 : Nat).testBit (4 * ((1 + 2) % 4) + 0) :=
  ⟨by decide, render_row_placement 0 0xF000 1 2 1 0 (by decide) (by decide) (by decide)⟩

/-- C1 (as stated) fails: rendering `h_line` (`0xF000`) with both shifts 0
gives `0x000F`; bit 12 of the framebuffer (row 3, bit 0) is clear although
bit 12 of the frame is set. -/
theorem render_row_same_index_fails :
    render 0 0xF000 0 0 = 0x000F ∧
    ¬ ((render 0 0xF000 0 0).testBit (4 * 3 + (0 + 0) % 4)
        = (0xF000 : Nat).testBit (4 * ((3 + 0) % 4) + 0)) := by
  decide

/-- A 16-bit value is the sum of its four nibbles. -/
theorem nibbles_sum (f : Nat) (hf : f < 65536) :
    f = 4096 * (f / 4096 % 16) + 256 * (f / 256 % 16) + 16 * (f / 16 % 16) + f % 16 := by
  have e2 : f / 256 = f / 16 / 16 := by rw [Nat.div_div_eq_div_mul]
  have e3 : f / 4096 = f / 256 / 16 := by rw [Nat.div_div_eq_div_mul]
  have m1 := Nat.div_add_mod f 16
  have m2 := Nat.div_add_mod (f / 16) 16
  have m3 := Nat.div_add_mod (f / 256) 16
  have m4 := Nat.div_add_mod (f / 4096) 16
  have h4 : f / 4096 < 16 := Nat.div_lt_of_lt_mul (by omega)
  rw [Nat.mod_eq_of_lt h4]
  rw [← e2] at m2
  rw [← e3] at m3
  omega

/-- The rows of the four passes when `y_shift = 0`. -/
theorem renderRow_noshift (f xs : Nat) :
    renderRow f xs 0 0 = rotateRow (f % 16) xs ∧
    renderRow f xs 0 1 = rotateRow (f / 16 % 16) xs ∧
    renderRow f xs 0 2 = rotateRow (f / 256 % 16) xs ∧
    renderRow f xs 0 3 = rotateRow (f / 4096 % 16) xs := by
  simp [renderRow_eq]

/-- C2 (as stated) fails: rendering the stored frame `h_line[0] = 0xF000`
with both shifts 0 leaves `0x000F` in the framebuffer, not `0xF000`. -/
theorem render_unshifted_not_identity :
    h_line.getD 0 0 = 0xF000 ∧
    render 0 (h_line.getD 0 0) 0 0 = 0x000F ∧
    render 0 (h_line.getD 0 0) 0 0 ≠ h_line.getD 0 0 := by
  decide

/-- C2 (amended): with both shifts 0 the render loop stores the frame with
its four rows in reverse order (row `r` of the frame becomes row `3 - r` of
the framebuffer, each row unchanged), so the framebuffer equals the frame
exactly when row 0 equals row 3 and row 1 equals row 2. -/
theorem render_unshifted_reverses_rows (fb f : Nat) (hf : f < 65536) :
    render fb f 0 0
        = 4096 * (f % 16) + 256 * (f / 16 % 16) + 16 * (f / 256 % 16) + f / 4096 % 16 ∧
    (render fb f 0 0 = f ↔ (f % 16 = f / 4096 % 16 ∧ f / 16 % 16 = f / 256 % 16)) := by
  obtain ⟨h0, h1, h2, h3⟩ := renderRow_noshift f 0
  have e : render fb f 0 0
      = 4096 * (f % 16) + 256 * (f / 16 % 16) + 16 * (f / 256 % 16) + f / 4096 % 16 := by
    rw [render_eq, h0, h1, h2, h3,
      rotateRow_zero _ (Nat.mod_lt _ (by norm_num)), rotateRow_zero _ (Nat.mod_lt _ (by norm_num)),
      rotateRow_zero _ (Nat.mod_lt _ (by norm_num)), rotateRow_zero _ (Nat.mod_lt _ (by norm_num))]
  refine ⟨e, ?_⟩
  have hd : f = 4096 * (f / 4096 % 16) + 256 * (f / 256 % 16) + 16 * (f / 16 % 16) + f % 16 :=
    nibbles_sum f hf
  have b0 : f % 16 < 16 := Nat.mod_lt _ (by norm_num)
  have b1 : f / 16 % 16 < 16 := Nat.mod_lt _ (by norm_num)
  have b2 : f / 256 % 16 < 16 := Nat.mod_lt _ (by norm_num)
  have b3 : f / 4096 % 16 < 16 := Nat.mod_lt _ (by norm_num)
  rw [e]
  generalize f % 16 = a at *
  generalize f / 16 % 16 = b at *
  generalize f / 256 % 16 = c at *
  generalize f / 4096 % 16 = d at *
  omega

theorem render_unshifted_reverses_rows_witness :
    (0x0040 : Nat) < 65536 ∧
    (render 0x1234 0x0040 0 0
        = 4096 * (0x0040 % 16) + 256 * (0x0040 / 16 % 16) + 16 * (0x0040 / 256 % 16)
            + 0x0040 / 4096 % 16 ∧
     (render 0x1234 0x0040 0 0 = 0x0040 ↔
        (0x0040 % 16 = 0x0040 / 4096 % 16 ∧ 0x0040 / 16 % 16 = 0x0040 / 256 % 16))) :=
  ⟨by decide, render_unshifted_reverses_rows 0x1234 0x0040 (by decide)⟩

/-- C3: rendering a 16-bit frame with `x_shift = k`, `y_shift = 0` and then
rendering the result with `x_shift = (4 - k) % 4`, `y_shift = 0` gives the
frame back, whatever the framebuffer held before either render. -/
theorem render_horizontal_roundtrip (fb fb2 f k : Nat) (hf : f < 65536) (hk : k ≤ 3) :
    render fb2 (render fb f k 0) ((4 - k) % 4) 0 = f := by
  have hk4 : k < 4 := by omega
  obtain ⟨h0, h1, h2, h3⟩ := renderRow_noshift f k
  have l0 := rotateRow_lt (f % 16) k (Nat.mod_lt _ (by norm_num))
  have l1 := rotateRow_lt (f / 16 % 16) k (Nat.mod_lt _ (by norm_num))
  have l2 := rotateRow_lt (f / 256 % 16) k (Nat.mod_lt _ (by norm_num))
  have l3 := rotateRow_lt (f / 4096 % 16) k (Nat.mod_lt _ (by norm_num))
  have i0 := rotateRow_inverse (f % 16) (Nat.mod_lt _ (by norm_num)) k hk4
  have i1 := rotateRow_inverse (f / 16 % 16) (Nat.mod_lt _ (by norm_num)) k hk4
  have i2 := rotateRow_inverse (f / 256 % 16) (Nat.mod_lt _ (by norm_num)) k hk4
  have i3 := rotateRow_inverse (f / 4096 % 16) (Nat.mod_lt _ (by norm_num)) k hk4
  have e1 := render_eq fb f k 0
  rw [h0, h1, h2, h3] at e1
  obtain ⟨g0, g1, g2, g3⟩ := renderRow_noshift (render fb f k 0) ((4 - k) % 4)
  have n0 : render fb f k 0 % 16 = rotateRow (f / 4096 % 16) k := by omega
  have n1 : render fb f k 0 / 16 % 16 = rotateRow (f / 256 % 16) k := by omega
  have n2 : render fb f k 0 / 256 % 16 = rotateRow (f / 16 % 16) k := by omega
  have n3 : render fb f k 0 / 4096 % 16 = rotateRow (f % 16) k := by omega
  rw [render_eq, g0, g1, g2, g3, n0, n1, n2, n3, i0, i1, i2, i3]
  omega

theorem render_horizontal_roundtrip_witness :
    ((0xF000 : Nat) < 65536 ∧ 3 ≤ 3) ∧ render 7 (render 0 0xF000 3 0) ((4 - 3) % 4) 0 = 0xF000 :=
  ⟨by decide, render_horizontal_roundtrip 0 7 0xF000 3 (by decide) (by decide)⟩

/-! ## The wait countdown -/

/-- The debounce countdown is a truncated decrement. -/
theorem debounceCountdown_eq (s : State) :
    debounceCountdown s = { s with button_debounce := s.button_debounce - 1 } := by
  unfold debounceCountdown
  split
  · rfl
  · next h =>
    have h0 : s.button_debounce = 0 := by omega
    cases s
    simp only at h0
    simp [h0]

/-- A tick with `wait` in `1..254`: only `wait` and the debounce counter move. -/
theorem tick_counting (s : State) (h1 : 0 < s.wait) (h2 : s.wait < 255) :
    tick s = { s with wait := s.wait - 1, button_debounce := s.button_debounce - 1 } := by
  simp only [tick, debounceCountdown_eq]
  simp [h1, h2]

/-- A tick with `wait = 255`: only the debounce counter moves. -/
theorem tick_frozen (s : State) (h : s.wait = 255) :
    tick s = { s with button_debounce := s.button_debounce - 1 } := by
  simp only [tick, debounceCountdown_eq]
  simp [h]

/-- A tick with `wait = 0` runs the rest of the loop body. -/
theorem tick_advance (s : State) (h : s.wait = 0) :
    tick s = advance { s with button_debounce := s.button_debounce - 1 } := by
  simp only [tick, debounceCountdown_eq]
  simp [h]

theorem ticks_frozen (n : Nat) : ∀ s : State, s.wait = 255 →
    ticks n s = { s with button_debounce := s.button_debounce - n } := by
  induction n with
  | zero => intro s _; rfl
  | succ n ih =>
    intro s h
    rw [ticks, tick_frozen s h, ih _ (by simpa using h)]
    simp only [Nat.sub_sub, Nat.add_comm 1 n]

theorem ticks_counting (k : Nat) : ∀ s : State, k ≤ s.wait → s.wait < 255 →
    ticks k s = { s with wait := s.wait - k, button_debounce := s.button_debounce - k } := by
  induction k with
  | zero => intro s _ _; rfl
  | succ k ih =>
    intro s h1 h2
    rw [ticks, tick_counting s (by omega) h2, ih _ (by simp; omega) (by simp; omega)]
    simp only [Nat.sub_sub, Nat.add_comm 1 k]

/-- C6: with `wait = 255`, any number of ticks changes nothing but the
debounce counter (so `wait` stays 255 and `prog`, `frame`, `x_shift`,
`y_shift`, `fb`, the LFSR and the starfield phase are unchanged); with
`wait = w` in `1..254`, one tick changes only `wait` to `w - 1` (and the
debounce counter), `k ≤ w` ticks change only `wait` to `w - k`, and `wait` is
0 after `w` ticks and not before. -/
theorem wait_countdown (s : State) (w : Nat) (hw : s.wait = w) (h1 : 1 ≤ w) (h2 : w ≤ 255) :
    (w = 255 → ∀ n, ticks n s = { s with button_debounce := s.button_debounce - n }) ∧
    (w ≤ 254 →
      tick s = { s with wait := w - 1, button_debounce := s.button_debounce - 1 } ∧
      (∀ k, k ≤ w →
        ticks k s = { s with wait := w - k, button_debounce := s.button_debounce - k }) ∧
      (ticks w s).wait = 0 ∧
      (∀ k, k < w → (ticks k s).wait ≠ 0)) := by
  subst hw
  refine ⟨fun h n => ticks_frozen n s h, fun h => ⟨?_, ?_, ?_, ?_⟩⟩
  · exact tick_counting s (by omega) (by omega)
  · intro k hk
    exact ticks_counting k s hk (by omega)
  · rw [ticks_counting _ s (le_refl _) (by omega)]
    simp
  · intro k hk
    rw [ticks_counting k s (by omega) (by omega)]
    simp
    omega

theorem wait_countdown_witness :
    ((ticks 3 { boot with wait := 3, fb := 0x6996, button_debounce := 2 }).wait = 0 ∧
      (ticks 3 { boot with wait := 3, fb := 0x6996, button_debounce := 2 }).fb = 0x6996) ∧
    (ticks 1000 { boot with wait := 255, fb := 0x6996 }).wait = 255 := by
  constructor
  · have h := ((wait_countdown { boot with wait := 3, fb := 0x6996, button_debounce := 2 } 3 rfl
      (by decide) (by decide)).2 (by decide)).2.1 3 (le_refl _)
    rw [h]
    exact ⟨rfl, rfl⟩
  · have h := (wait_countdown { boot with wait := 255, fb := 0x6996 } 255 rfl
      (by decide) (by decide)).1 rfl 1000
    rw [h]

/-! ## The button handler -/

/-- C5: inside the debounce lockout `button_check` returns at once: for
every pin level the whole state (`prog`, `wait`, `frame`, `x_shift`,
`y_shift`, `fb`, `button_state`, `button_debounce`, and the rest) is
unchanged. -/
theorem button_check_lockout (s : State) (pinb : Nat) (h : s.button_debounce > 0) :
    button_check s pinb = s := by
  simp [button_check, h]

theorem button_check_lockout_witness :
    (30 : Nat) > 0 ∧
    button_check { boot with button_state := 8, button_debounce := 30 } 0
      = { boot with button_state := 8, button_debounce := 30 } :=
  ⟨by decide, button_check_lockout { boot with button_state := 8, button_debounce := 30 } 0
    (by decide)⟩

/-- The program table, entry by entry. -/
theorem program_table :
    program 0 = ⟨0x81, 255, none, circle⟩ ∧
    program 1 = ⟨0x81, 255, none, X⟩ ∧
    program 2 = ⟨0x84, 70, some UpdateFun.h_move, v_line⟩ ∧
    program 3 = ⟨0x84, 70, some UpdateFun.v_move, h_line⟩ ∧
    program 4 = ⟨0x83, 50, some UpdateFun.h_move, chevron_right⟩ ∧
    program 5 = ⟨0x06, 20, none, pulse⟩ ∧
    program 6 = ⟨0x80, 20, some UpdateFun.starfield, []⟩ := by
  decide

/-- The frame counts of the seven programs. -/
theorem frameCount_table :
    frameCount 0 = 1 ∧ frameCount 1 = 1 ∧ frameCount 2 = 4 ∧ frameCount 3 = 4 ∧
    frameCount 4 = 3 ∧ frameCount 5 = 6 ∧ frameCount 6 = 0 := by
  decide

/-- The virtual flags of the seven programs. -/
theorem virtualFlag_table :
    virtualFlag 0 = 128 ∧ virtualFlag 1 = 128 ∧ virtualFlag 2 = 128 ∧ virtualFlag 3 = 128 ∧
    virtualFlag 4 = 128 ∧ virtualFlag 5 = 0 ∧ virtualFlag 6 = 128 := by
  decide

/-- The next program index is the successor modulo 7. -/
theorem nextProg_eq (p : Nat) (hp : p < 7) : nextProg p = (p + 1) % 7 := by
  have hs : p = 0 ∨ p = 1 ∨ p = 2 ∨ p = 3 ∨ p = 4 ∨ p = 5 ∨ p = 6 := by omega
  rcases hs with h | h | h | h | h | h | h <;> subst h <;> decide

/-- A recognised press: the effect of `button_check` outside the lockout when
the recorded level has bit 3 set and the pin reads low. -/
theorem button_check_press (s : State) (pinb : Nat) (hd : s.button_debounce = 0)
    (hprev : s.button_state &&& 8 = 8) (hcur : pinb &&& 8 = 0) :
    button_check s pinb =
      { s with prog := nextProg s.prog, wait := 0, frame := 0, x_shift := 0, y_shift := 0,
               button_debounce := 30, button_state := 0 } := by
  have hpr : pressed s pinb &&& 8 ≠ 0 := by
    have h8 : (255 ^^^ 0 : Nat) &&& 8 = 8 := by decide
    unfold pressed
    simp only [hcur]
    rw [Nat.and_assoc, h8, hprev]
    decide
  unfold button_check
  rw [if_neg (by omega), if_pos hpr]
  simp only [hcur]

/-- The effect of `advance` for the six programs that have frames: the
framebuffer is rendered, `frame` advances, the callback (if any) copies the
new frame number into its shift, `wait` is reloaded. -/
theorem advance_eq (s : State) (hp : s.prog < 6) :
    advance s =
      { s with
        fb := render s.fb (sourceFrame s) s.x_shift s.y_shift,
        frame := nextFrame s.frame (frameCount s.prog),
        x_shift := if (program s.prog).update = some UpdateFun.h_move
          then nextFrame s.frame (frameCount s.prog) else s.x_shift,
        y_shift := if (program s.prog).update = some UpdateFun.v_move
          then nextFrame s.frame (frameCount s.prog) else s.y_shift,
        wait := (program s.prog).frame_wait } := by
  obtain ⟨t0, t1, t2, t3, t4, t5, -⟩ := program_table
  obtain ⟨c0, c1, c2, c3, c4, c5, -⟩ := frameCount_table
  have hs : s.prog = 0 ∨ s.prog = 1 ∨ s.prog = 2 ∨ s.prog = 3 ∨ s.prog = 4 ∨ s.prog = 5 := by
    omega
  rcases hs with h | h | h | h | h | h <;>
    simp [advance, renderBlock, h, t0, t1, t2, t3, t4, t5, c0, c1, c2, c3, c4, c5,
      callUpdate, h_move, v_move]

/-- The effect of `starfield` in closed form: it writes `fb`, `lfsr` and its
own phase counter, nothing else. -/
theorem starfield_eq (s : State) (n : Nat) :
    starfield s n =
      { s with
        fb := if s.star_state = 0 then (1 <<< (s.lfsr &&& 0xF)) % 65536
          else if s.star_state = 1 then 0 else s.fb,
        lfsr := if s.star_state = 0 then lfsr_next (lfsr_next (lfsr_next (lfsr_next s.lfsr)))
          else s.lfsr,
        star_state := if (s.star_state + 1) % 256 = 5 then 0 else (s.star_state + 1) % 256 } := by
  unfold starfield lfsr_step
  by_cases h0 : s.star_state = 0
  · simp [h0]
  · by_cases h1 : s.star_state = 1
    · simp [h1]
    · simp only [h0, h1, if_false]
      split <;> rfl

/-- The effect of `advance` for the starfield program: no render, `frame`
advances, the callback runs, `wait` is reloaded. -/
theorem advance_starfield (s : State) (hp : s.prog = 6) :
    advance s =
      { starfield { s with frame := nextFrame s.frame 0 } (nextFrame s.frame 0)
        with wait := 20 } := by
  obtain ⟨-, -, -, -, -, -, t6⟩ := program_table
  obtain ⟨-, -, -, -, -, -, c6⟩ := frameCount_table
  simp [advance, renderBlock, hp, t6, c6, callUpdate, starfield_eq]

/-- The source frame of a state with `frame = 0` is the first stored frame. -/
theorem sourceFrame_first (s : State) (h : s.frame = 0) :
    sourceFrame s = (program s.prog).frames.getD 0 0 := by
  unfold sourceFrame frameIndex
  split <;> simp [h]

/-- C4: outside the lockout, with `prog < 7`, the recorded level high (bit 3
of `button_state` set) and the pin low (bit 3 of `PINB` clear), `button_check`
sets `prog` to `(prog + 1) % 7`, clears `wait`, `frame`, `x_shift` and
`y_shift`, sets `button_debounce = 30` and `button_state = 0`, and leaves
`fb`, the LFSR and the starfield phase alone.  The tick that follows does not
wait: it runs the rest of the loop body (`advance`), reloads `wait` from the
new program and, when that program has frames, leaves in `fb` the render of
its first frame with both shifts 0. -/
theorem program_switch (s : State) (pinb : Nat) (hd : s.button_debounce = 0)
    (hp : s.prog < 7) (hprev : s.button_state &&& 8 = 8) (hcur : pinb &&& 8 = 0) :
    button_check s pinb =
      { s with prog := (s.prog + 1) % 7, wait := 0, frame := 0, x_shift := 0, y_shift := 0,
               button_debounce := 30, button_state := 0 } ∧
    tick (button_check s pinb) = advance { button_check s pinb with button_debounce := 29 } ∧
    (tick (button_check s pinb)).wait = (program ((s.prog + 1) % 7)).frame_wait ∧
    (0 < frameCount ((s.prog + 1) % 7) →
      (tick (button_check s pinb)).fb
        = render s.fb ((program ((s.prog + 1) % 7)).frames.getD 0 0) 0 0) := by
  have hb := button_check_press s pinb hd hprev hcur
  rw [nextProg_eq s.prog hp] at hb
  refine ⟨hb, ?_, ?_, ?_⟩
  · rw [hb, tick_advance _ rfl]
    rfl
  · rw [hb, tick_advance _ rfl]
    by_cases h6 : (s.prog + 1) % 7 = 6
    · rw [advance_starfield _ h6, h6]
      exact program_table.2.2.2.2.2.2 ▸ rfl
    · rw [advance_eq _ (by simp only; omega)]
  · intro hc
    have h6 : (s.prog + 1) % 7 < 6 := by
      have h7 : (s.prog + 1) % 7 < 7 := Nat.mod_lt _ (by norm_num)
      have c6 := frameCount_table.2.2.2.2.2.2
      by_contra hne
      have : (s.prog + 1) % 7 = 6 := by omega
      rw [this, c6] at hc
      exact absurd hc (by decide)
    rw [hb, tick_advance _ rfl, advance_eq _ h6]
    simp only
    rw [sourceFrame_first _ rfl]

theorem program_switch_witness :
    button_check { boot with prog := 6, wait := 17, frame := 9, button_state := 8 } 0
      = { boot with prog := 0, button_debounce := 30 } ∧
    (tick (button_check { boot with prog := 6, wait := 17, frame := 9, button_state := 8 } 0)).fb
      = 0x6996 := by
  have h := program_switch { boot with prog := 6, wait := 17, frame := 9, button_state := 8 } 0
    rfl (by decide) (by decide) (by decide)
  refine ⟨h.1, ?_⟩
  rw [h.2.2.2 (by decide)]
  decide

/-! ## Range invariant -/

/-- A tick with `wait > 0` changes only `wait` and the debounce counter. -/
theorem tick_waiting (s : State) (h : 0 < s.wait) :
    tick s = { s with wait := if s.wait < 255 then s.wait - 1 else s.wait,
                      button_debounce := s.button_debounce - 1 } := by
  simp only [tick, debounceCountdown_eq]
  rw [if_pos h]
  split <;> rfl

/-- The frame advance keeps `frame` below a positive frame count. -/
theorem nextFrame_lt (f n : Nat) (hf : f < n) (hn : n ≤ 255) : nextFrame f n < n := by
  unfold nextFrame
  simp only
  split <;> omega

/-- The frame advance yields an 8-bit value. -/
theorem nextFrame_lt_256 (f n : Nat) : nextFrame f n < 256 := by
  unfold nextFrame
  simp only
  split <;> omega

/-- The program switch keeps `prog` inside the table. -/
theorem nextProg_lt (p : Nat) (hp : p < 7) : nextProg p < 7 := by
  rw [nextProg_eq p hp]
  exact Nat.mod_lt _ (by norm_num)

theorem inRange_boot : InRange boot := by
  decide

theorem inRange_tick (s : State) (h : InRange s) : InRange (tick s) := by
  obtain ⟨hp, hf, hf8, hx, hy⟩ := h
  unfold N_PROGRAMS at hp
  by_cases hw : 0 < s.wait
  · rw [tick_waiting s hw]
    exact ⟨hp, hf, hf8, hx, hy⟩
  · rw [tick_advance s (by omega)]
    obtain ⟨t0, t1, t2, t3, t4, t5, -⟩ := program_table
    obtain ⟨c0, c1, c2, c3, c4, c5, c6⟩ := frameCount_table
    by_cases h6 : s.prog = 6
    · rw [advance_starfield _ (by exact h6), starfield_eq]
      refine ⟨hp, ?_, nextFrame_lt_256 _ _, hx, hy⟩
      simp only [h6, c6]
      intro h0
      exact absurd h0 (by decide)
    · rw [advance_eq _ (by simp only; omega)]
      simp only
      have hs : s.prog = 0 ∨ s.prog = 1 ∨ s.prog = 2 ∨ s.prog = 3 ∨ s.prog = 4 ∨ s.prog = 5 := by
        omega
      rcases hs with h | h | h | h | h | h <;>
        simp only [h, c0, c1, c2, c3, c4, c5] at hf ⊢ <;>
        have hn := nextFrame_lt s.frame _ (hf (by decide)) (by decide) <;>
        simp [InRange, N_PROGRAMS, t0, t1, t2, t3, t4, t5, c0, c1, c2, c3, c4, c5, hx, hy] <;>
        omega

theorem inRange_button_check (s : State) (pinb : Nat) (h : InRange s) :
    InRange (button_check s pinb) := by
  obtain ⟨hp, hf, hf8, hx, hy⟩ := h
  unfold N_PROGRAMS at hp
  unfold button_check
  split
  · exact ⟨hp, hf, hf8, hx, hy⟩
  · simp only
    split
    · refine ⟨nextProg_lt _ hp, fun h0 => h0, ?_, ?_, ?_⟩ <;> simp
    · exact ⟨hp, hf, hf8, hx, hy⟩

theorem inRange_run (evs : List Event) : ∀ s : State, InRange s → InRange (run s evs) := by
  induction evs with
  | nil => intro s h; exact h
  | cons e evs ih =>
    intro s h
    cases e with
    | tick => exact ih _ (inRange_tick s h)
    | button pinb => exact ih _ (inRange_button_check s pinb h)

/-- Every reachable state satisfies the range invariant. -/
theorem inRange_of_reachable (s : State) (h : Reachable s) : InRange s := by
  obtain ⟨evs, rfl⟩ := h
  exact inRange_run evs boot inRange_boot

set_option maxRecDepth 100000 in
/-- C7 (as stated) fails: six presses after boot select the starfield program
(`prog = 6`), whose frame count `0x80 & 0x7F` is 0, so `frame = 0` is not
below it; one tick later `frame` is 1. -/
theorem frame_not_below_frameCount_on_starfield :
    Reachable (run boot sixPresses) ∧
    (run boot sixPresses).prog = 6 ∧ (run boot sixPresses).frame = 0 ∧
    frameCount (run boot sixPresses).prog = 0 ∧
    ¬ ((run boot sixPresses).frame < frameCount (run boot sixPresses).prog) ∧
    (tick (run boot sixPresses)).frame = 1 := by
  refine ⟨⟨sixPresses, rfl⟩, ?_⟩
  decide

/-- On a program with frame count 0 the frame advance is an 8-bit
increment. -/
theorem nextFrame_zero (f : Nat) : nextFrame f 0 = (f + 1) % 256 := by
  unfold nextFrame
  simp only
  split
  · next h => rw [h]
  · rfl

/-- C7 (amended): in every state reachable from boot by ticks and
`button_check` events, `prog < 7`, and `frame` is below the frame count of
the selected program whenever that frame count is not 0, that is for every
program but starfield; `frame` is an 8-bit value in any case.  On starfield
(`prog = 6`, frame count 0) a tick with `wait = 0` sets `frame` to
`(frame + 1) % 256` and keeps `prog = 6`, a tick with `wait > 0` leaves
`frame` alone, and a recognised press sets `frame = 0` (from `prog = 5` it
selects starfield with `frame = 0`). -/
theorem frame_below_frameCount (s : State) (h : Reachable s) :
    s.prog < 7 ∧ (s.prog ≠ 6 → s.frame < frameCount s.prog) ∧ s.frame < 256 ∧
    (s.prog = 6 → s.wait = 0 →
      (tick s).frame = (s.frame + 1) % 256 ∧ (tick s).prog = 6) ∧
    (s.prog = 6 → 0 < s.wait → (tick s).frame = s.frame ∧ (tick s).prog = 6) ∧
    (∀ pinb, pressRecognised s pinb → (button_check s pinb).frame = 0) ∧
    (∀ pinb, s.prog = 5 → pressRecognised s pinb →
      (button_check s pinb).prog = 6 ∧ (button_check s pinb).frame = 0) := by
  obtain ⟨hp, hf, hf8, -, -⟩ := inRange_of_reachable s h
  unfold N_PROGRAMS at hp
  have hpress : ∀ pinb, pressRecognised s pinb →
      button_check s pinb =
        { s with prog := nextProg s.prog, wait := 0, frame := 0, x_shift := 0, y_shift := 0,
                 button_debounce := 30, button_state := pinb &&& 8 } := by
    intro pinb hr
    unfold button_check
    rw [if_neg (by rw [hr.1]; decide), if_pos hr.2]
  refine ⟨hp, ?_, hf8, ?_, ?_, ?_, ?_⟩
  · intro h6
    apply hf
    obtain ⟨c0, c1, c2, c3, c4, c5, -⟩ := frameCount_table
    have hs : s.prog = 0 ∨ s.prog = 1 ∨ s.prog = 2 ∨ s.prog = 3 ∨ s.prog = 4 ∨ s.prog = 5 := by
      omega
    rcases hs with h | h | h | h | h | h <;> simp [h, c0, c1, c2, c3, c4, c5]
  · intro h6 hw
    rw [tick_advance s hw, advance_starfield _ (by exact h6), starfield_eq]
    exact ⟨nextFrame_zero s.frame, h6⟩
  · intro h6 hw
    rw [tick_waiting s hw]
    exact ⟨rfl, h6⟩
  · intro pinb hr
    rw [hpress pinb hr]
  · intro pinb h5 hr
    rw [hpress pinb hr]
    simp only [h5]
    exact ⟨by decide, trivial⟩

set_option maxRecDepth 100000 in
theorem frame_below_frameCount_witness :
    ((run boot (pressAndSettle ++ pressAndSettle ++ [Event.tick])).prog = 2 ∧
      (run boot (pressAndSettle ++ pressAndSettle ++ [Event.tick])).frame < frameCount 2) ∧
    ((run boot sixPresses).prog = 6 ∧ (run boot sixPresses).wait = 0 ∧
      (tick (run boot sixPresses)).frame = ((run boot sixPresses).frame + 1) % 256) := by
  have h := frame_below_frameCount (run boot (pressAndSettle ++ pressAndSettle ++ [Event.tick]))
    ⟨_, rfl⟩
  have hp : (run boot (pressAndSettle ++ pressAndSettle ++ [Event.tick])).prog = 2 := by decide
  have h2 := h.2.1 (by rw [hp]; decide)
  rw [hp] at h2
  have g := frame_below_frameCount (run boot sixPresses) ⟨_, rfl⟩
  have g6 : (run boot sixPresses).prog = 6 := by decide
  have gw : (run boot sixPresses).wait = 0 := by decide
  exact ⟨⟨hp, h2⟩, g6, gw, (g.2.2.2.1 g6 gw).1⟩

/-! ## Scenarios -/

/-- A call of `button_check` that recognises no press changes at most
`button_state`. -/
theorem button_check_unrecognised (s : State) (pinb : Nat) (h : ¬ pressRecognised s pinb) :
    button_check s pinb =
      { s with button_state := if s.button_debounce > 0 then s.button_state else pinb &&& 8 } := by
  unfold button_check
  by_cases hd : s.button_debounce > 0
  · rw [if_pos hd, if_pos hd]
  · have hp : ¬ (pressed s pinb &&& 8 ≠ 0) := fun hp => h ⟨by omega, hp⟩
    rw [if_neg hd, if_neg hd, if_neg hp]

/-- With `wait = 255`, ticks and unrecognised button events leave the
framebuffer and the scheduling variables alone. -/
theorem frozen_run (evs : List Event) : ∀ s : State, noPress s evs →
    s.wait = 255 →
    (run s evs).fb = s.fb ∧ (run s evs).prog = s.prog ∧ (run s evs).frame = s.frame ∧
    (run s evs).x_shift = s.x_shift ∧ (run s evs).y_shift = s.y_shift ∧
    (run s evs).wait = 255 := by
  induction evs with
  | nil => intro s _ hw; exact ⟨rfl, rfl, rfl, rfl, rfl, hw⟩
  | cons e evs ih =>
    intro s hn hw
    cases e with
    | tick =>
      have e := tick_frozen s hw
      obtain ⟨a1, a2, a3, a4, a5, a6⟩ := ih (tick s) hn (by rw [e]; exact hw)
      have f1 : (tick s).fb = s.fb := by rw [e]
      have f2 : (tick s).prog = s.prog := by rw [e]
      have f3 : (tick s).frame = s.frame := by rw [e]
      have f4 : (tick s).x_shift = s.x_shift := by rw [e]
      have f5 : (tick s).y_shift = s.y_shift := by rw [e]
      exact ⟨a1.trans f1, a2.trans f2, a3.trans f3, a4.trans f4, a5.trans f5, a6⟩
    | button pinb =>
      have e := button_check_unrecognised s pinb hn.1
      obtain ⟨a1, a2, a3, a4, a5, a6⟩ := ih (button_check s pinb) hn.2 (by rw [e]; exact hw)
      have f1 : (button_check s pinb).fb = s.fb := by rw [e]
      have f2 : (button_check s pinb).prog = s.prog := by rw [e]
      have f3 : (button_check s pinb).frame = s.frame := by rw [e]
      have f4 : (button_check s pinb).x_shift = s.x_shift := by rw [e]
      have f5 : (button_check s pinb).y_shift = s.y_shift := by rw [e]
      exact ⟨a1.trans f1, a2.trans f2, a3.trans f3, a4.trans f4, a5.trans f5, a6⟩

/-- C8: from boot, the first tick leaves the stored circle bitmap (`0x6996`)
in `fb` and `wait = 255`; after any number `n` of further ticks, and more
generally after any further ticks and `button_check` calls none of which
recognises a press, `fb` is still the circle bitmap and `prog`, `frame`,
`x_shift`, `y_shift` and `wait` are what they were after the first tick (0,
0, 0, 0 and 255). -/
theorem static_glyph_frozen :
    circle = [0x6996] ∧
    (tick boot).fb = circle.getD 0 0 ∧ (tick boot).wait = 255 ∧
    (∀ n : Nat,
      (ticks n (tick boot)).fb = circle.getD 0 0 ∧
      (ticks n (tick boot)).prog = 0 ∧ (ticks n (tick boot)).frame = 0 ∧
      (ticks n (tick boot)).x_shift = 0 ∧ (ticks n (tick boot)).y_shift = 0 ∧
      (ticks n (tick boot)).wait = 255) ∧
    (∀ evs : List Event, noPress (tick boot) evs →
      (run (tick boot) evs).fb = circle.getD 0 0 ∧
      (run (tick boot) evs).prog = 0 ∧ (run (tick boot) evs).frame = 0 ∧
      (run (tick boot) evs).x_shift = 0 ∧ (run (tick boot) evs).y_shift = 0 ∧
      (run (tick boot) evs).wait = 255) := by
  refine ⟨by decide, by decide, by decide, ?_, ?_⟩
  · intro n
    rw [ticks_frozen n (tick boot) (by decide)]
    dsimp only
    decide
  · intro evs hn
    obtain ⟨h1, h2, h3, h4, h5, h6⟩ := frozen_run evs (tick boot) hn (by decide)
    rw [h1, h2, h3, h4, h5, h6]
    decide

theorem static_glyph_frozen_witness :
    (run (tick boot) [Event.tick, Event.button 0, Event.tick, Event.button 8]).fb = 0x6996 ∧
    (ticks 500 (tick boot)).fb = 0x6996 := by
  have h := static_glyph_frozen.2.2.2
  have hn : noPress (tick boot) [Event.tick, Event.button 0, Event.tick, Event.button 8] := by
    decide
  exact ⟨(h.2 _ hn).1, (h.1 500).1⟩

/-- Running `a + b` ticks is running `a` ticks and then `b` ticks. -/
theorem ticks_add (a b : Nat) : ∀ s : State, ticks (a + b) s = ticks b (ticks a s) := by
  induction a with
  | zero => intro s; simp [ticks]
  | succ a ih =>
    intro s
    rw [Nat.add_right_comm, ticks, ih]
    rfl

/-- The framebuffer after the render loop does not depend on its old value. -/
theorem render_independent (fb fb2 f xs ys : Nat) : render fb f xs ys = render fb2 f xs ys := by
  rw [render_eq, render_eq]

/-- One frame period of the horizontal-scroll program (program 2): from a
state at the end of its wait, with `frame = x_shift = i`, the tick renders at
`x_shift = i`, moves `frame` and `x_shift` to `(i + 1) % 4` and reloads
`wait = 70`; the next `k ≤ 70` ticks only count down. -/
theorem hscroll_period (s : State) (i k : Nat) (hp : s.prog = 2) (hw : s.wait = 0)
    (hf : s.frame = i) (hx : s.x_shift = i) (hy : s.y_shift = 0) (hi : i < 4) (hk : k ≤ 70) :
    ticks (k + 1) s =
      { s with fb := render 0 0x1111 i 0, frame := (i + 1) % 4, x_shift := (i + 1) % 4,
               wait := 70 - k, button_debounce := s.button_debounce - 1 - k } := by
  have hn : nextFrame i 4 = (i + 1) % 4 := by
    have hs : i = 0 ∨ i = 1 ∨ i = 2 ∨ i = 3 := by omega
    rcases hs with h | h | h | h <;> subst h <;> decide
  have hsrc : ∀ t : State, t.prog = 2 → sourceFrame t = 0x1111 := by
    intro t ht
    unfold sourceFrame frameIndex
    rw [ht, virtualFlag_table.2.2.1, if_pos (by decide)]
    decide
  have ht : tick s =
      { s with fb := render 0 0x1111 i 0, frame := (i + 1) % 4, x_shift := (i + 1) % 4,
               wait := 70, button_debounce := s.button_debounce - 1 } := by
    rw [tick_advance s hw, advance_eq _ (by simp only; omega)]
    simp only [hp, program_table.2.2.1, frameCount_table.2.2.1, hf, hx, hy, hn, if_true]
    rw [render_independent s.fb 0, hsrc _ rfl]
    simp
  rw [ticks, ht, ticks_counting k _ (by simpa using hk) (by simp)]

/-- The scheduling variables and the framebuffer during one frame period of
the horizontal-scroll program. -/
theorem hscroll_phase (s : State) (i k : Nat) (hp : s.prog = 2) (hw : s.wait = 0)
    (hf : s.frame = i) (hx : s.x_shift = i) (hy : s.y_shift = 0) (hi : i < 4) (hk : k ≤ 70) :
    (ticks (k + 1) s).prog = 2 ∧ (ticks (k + 1) s).y_shift = 0 ∧
    (ticks (k + 1) s).frame = (i + 1) % 4 ∧ (ticks (k + 1) s).x_shift = (i + 1) % 4 ∧
    (ticks (k + 1) s).wait = 70 - k ∧ (ticks (k + 1) s).fb = render 0 0x1111 i 0 := by
  rw [hscroll_period s i k hp hw hf hx hy hi hk]
  exact ⟨hp, hy, rfl, rfl, rfl, rfl⟩

/-- C9: from a state with `prog = 2` (`v_line`, 4 frames, `h_move`,
`frame_wait = 70`), `wait = 0`, `frame = 0` and both shifts 0, over 280 ticks
`x_shift` is 0 at the start, 1 after ticks 1..71, 2 after ticks 72..142, 3
after ticks 143..213 and 0 after ticks 214..280, so it runs through 0, 1, 2,
3, 0 and is 0 after tick 280.  The first tick renders at `x_shift = 0` and
leaves `0x1111`; rendering in the state after tick 280, where `x_shift = 0`
again, gives the same bitmap, and so does the next render the loop performs
(tick 285).  Each frame lasts 71 ticks: until tick 285, `fb` holds the
render at `x_shift = 3`. -/
theorem horizontal_scroll_cycle (s : State) (hp : s.prog = 2) (hw : s.wait = 0)
    (hf : s.frame = 0) (hx : s.x_shift = 0) (hy : s.y_shift = 0) :
    (∀ n, n ≤ 280 →
      (ticks n s).x_shift =
        if n = 0 then 0 else if n ≤ 71 then 1 else if n ≤ 142 then 2
        else if n ≤ 213 then 3 else 0) ∧
    (ticks 280 s).x_shift = 0 ∧
    (tick s).fb = 0x1111 ∧
    (renderBlock (ticks 280 s)).fb = (tick s).fb ∧
    (ticks 285 s).fb = (tick s).fb ∧
    (ticks 280 s).fb = 0x8888 := by
  have P1 := fun k hk => hscroll_phase s 0 k hp hw hf hx hy (by decide) hk
  obtain ⟨p1, y1, f1, x1, w1, -⟩ := P1 70 (le_refl _)
  have P2 := fun k hk => hscroll_phase (ticks 71 s) 1 k p1 w1 f1 x1 y1 (by decide) hk
  obtain ⟨p2, y2, f2, x2, w2, -⟩ := P2 70 (le_refl _)
  rw [← ticks_add 71 71] at p2 y2 f2 x2 w2
  have P3 := fun k hk => hscroll_phase (ticks 142 s) 2 k p2 w2 f2 x2 y2 (by decide) hk
  obtain ⟨p3, y3, f3, x3, w3, -⟩ := P3 70 (le_refl _)
  rw [← ticks_add 142 71] at p3 y3 f3 x3 w3
  have P4 := fun k hk => hscroll_phase (ticks 213 s) 3 k p3 w3 f3 x3 y3 (by decide) hk
  obtain ⟨p4, y4, f4, x4, w4, -⟩ := P4 70 (le_refl _)
  rw [← ticks_add 213 71] at p4 y4 f4 x4 w4
  have P5 := fun k hk => hscroll_phase (ticks 284 s) 0 k p4 w4 f4 x4 y4 (by decide) hk
  have r0 : render 0 0x1111 0 0 = 0x1111 := by decide
  have r3 : render 0 0x1111 3 0 = 0x8888 := by decide
  have hfirst : (tick s).fb = 0x1111 := by
    have h := (P1 0 (by omega)).2.2.2.2.2
    rw [r0] at h
    exact h
  have h280 := P4 66 (by omega)
  rw [← ticks_add 213 67] at h280
  obtain ⟨q1, q2, q3, q4, -, q6⟩ := h280
  refine ⟨?_, q4, hfirst, ?_, ?_, ?_⟩
  · intro n hn
    by_cases h0 : n = 0
    · subst h0
      rw [if_pos rfl]
      exact hx
    · rw [if_neg h0]
      by_cases h1 : n ≤ 71
      · rw [if_pos h1]
        obtain ⟨k, rfl⟩ : ∃ k, n = k + 1 := ⟨n - 1, by omega⟩
        exact (P1 k (by omega)).2.2.2.1
      · rw [if_neg h1]
        by_cases h2 : n ≤ 142
        · rw [if_pos h2]
          obtain ⟨k, rfl⟩ : ∃ k, n = 71 + (k + 1) := ⟨n - 72, by omega⟩
          rw [ticks_add]
          exact (P2 k (by omega)).2.2.2.1
        · rw [if_neg h2]
          by_cases h3 : n ≤ 213
          · rw [if_pos h3]
            obtain ⟨k, rfl⟩ : ∃ k, n = 142 + (k + 1) := ⟨n - 143, by omega⟩
            rw [ticks_add]
            exact (P3 k (by omega)).2.2.2.1
          · rw [if_neg h3]
            obtain ⟨k, rfl⟩ : ∃ k, n = 213 + (k + 1) := ⟨n - 214, by omega⟩
            rw [ticks_add]
            exact (P4 k (by omega)).2.2.2.1
  · rw [hfirst]
    have hc : 0 < frameCount (ticks 280 s).prog := by
      rw [q1]
      decide
    have hsrc : sourceFrame (ticks 280 s) = 0x1111 := by
      unfold sourceFrame frameIndex
      rw [q1, virtualFlag_table.2.2.1, if_pos (by decide)]
      decide
    unfold renderBlock
    rw [if_pos hc]
    simp only
    rw [hsrc, q4, q2, render_independent _ 0, r0]
  · rw [hfirst]
    have h := (P5 0 (by omega)).2.2.2.2.2
    rw [← ticks_add 284 1, r0] at h
    exact h
  · rw [q6, r3]

theorem horizontal_scroll_cycle_witness :
    (ticks 280 { boot with prog := 2, button_debounce := 30 }).x_shift = 0 ∧
    (ticks 100 { boot with prog := 2, button_debounce := 30 }).x_shift = 2 ∧
    (ticks 285 { boot with prog := 2, button_debounce := 30 }).fb = 0x1111 := by
  have h := horizontal_scroll_cycle { boot with prog := 2, button_debounce := 30 }
    rfl rfl rfl rfl rfl
  refine ⟨h.2.1, ?_, ?_⟩
  · rw [h.1 100 (by decide)]
    decide
  · rw [h.2.2.2.2.1, h.2.2.1]

/-! ## The starfield callback -/

/-- The flash written in phase 0 is a single bit of the 16-bit framebuffer. -/
theorem starfield_flash (l : Nat) : (1 <<< (l &&& 0xF)) % 65536 = 2 ^ (l % 16) := by
  have hlt : l % 16 < 16 := Nat.mod_lt _ (by norm_num)
  have hpow : 2 ^ (l % 16) < 2 ^ 16 := Nat.pow_lt_pow_right (by norm_num) hlt
  rw [and_fifteen, Nat.shiftLeft_eq, Nat.one_mul]
  exact Nat.mod_eq_of_lt hpow

/-- C10: five consecutive `starfield` calls from phase 0, for every LFSR
value, framebuffer content and frame arguments: the first call leaves exactly
one bit set in `fb` (one of its 16 bits), the second leaves `fb = 0`, and
`fb` is 0 after each of the last three calls too, so no call but the first
leaves a single bit set; a call in phase 2, 3 or 4 does not write `fb`; the
phase runs through 1, 2, 3, 4 and is 0 again after the fifth call. -/
theorem starfield_cycle (s : State) (a b c d e : Nat) (h0 : s.star_state = 0) :
    (∃ p, p < 16 ∧ (starfield s a).fb = 2 ^ p) ∧
    (starfield (starfield s a) b).fb = 0 ∧
    (starfield (starfield (starfield s a) b) c).fb = 0 ∧
    (starfield (starfield (starfield (starfield s a) b) c) d).fb = 0 ∧
    (starfield (starfield (starfield (starfield (starfield s a) b) c) d) e).fb = 0 ∧
    (∀ q,
      (starfield (starfield s a) b).fb ≠ 2 ^ q ∧
      (starfield (starfield (starfield s a) b) c).fb ≠ 2 ^ q ∧
      (starfield (starfield (starfield (starfield s a) b) c) d).fb ≠ 2 ^ q ∧
      (starfield (starfield (starfield (starfield (starfield s a) b) c) d) e).fb ≠ 2 ^ q) ∧
    (∀ (t : State) (n : Nat), 2 ≤ t.star_state → t.star_state ≤ 4 →
      (starfield t n).fb = t.fb) ∧
    (starfield s a).star_state = 1 ∧
    (starfield (starfield s a) b).star_state = 2 ∧
    (starfield (starfield (starfield s a) b) c).star_state = 3 ∧
    (starfield (starfield (starfield (starfield s a) b) c) d).star_state = 4 ∧
    (starfield (starfield (starfield (starfield (starfield s a) b) c) d) e).star_state = 0 := by
  have e1 : starfield s a =
      { s with fb := 2 ^ (s.lfsr % 16),
               lfsr := lfsr_next (lfsr_next (lfsr_next (lfsr_next s.lfsr))),
               star_state := 1 } := by
    rw [starfield_eq, h0, starfield_flash]
    rfl
  have e2 : starfield (starfield s a) b =
      { s with fb := 0, lfsr := lfsr_next (lfsr_next (lfsr_next (lfsr_next s.lfsr))),
               star_state := 2 } := by
    rw [e1, starfield_eq]
    rfl
  have e3 : starfield (starfield (starfield s a) b) c =
      { s with fb := 0, lfsr := lfsr_next (lfsr_next (lfsr_next (lfsr_next s.lfsr))),
               star_state := 3 } := by
    rw [e2, starfield_eq]
    rfl
  have e4 : starfield (starfield (starfield (starfield s a) b) c) d =
      { s with fb := 0, lfsr := lfsr_next (lfsr_next (lfsr_next (lfsr_next s.lfsr))),
               star_state := 4 } := by
    rw [e3, starfield_eq]
    rfl
  have e5 : starfield (starfield (starfield (starfield (starfield s a) b) c) d) e =
      { s with fb := 0, lfsr := lfsr_next (lfsr_next (lfsr_next (lfsr_next s.lfsr))),
               star_state := 0 } := by
    rw [e4, starfield_eq]
    rfl
  have hz : ∀ q : Nat, (0 : Nat) ≠ 2 ^ q := fun q => (Nat.pos_pow_of_pos q (by norm_num)).ne
  rw [e5, e4, e3, e2, e1]
  refine ⟨⟨s.lfsr % 16, Nat.mod_lt _ (by norm_num), rfl⟩, rfl, rfl, rfl, rfl,
    fun q => ⟨hz q, hz q, hz q, hz q⟩, ?_, rfl, rfl, rfl, rfl, rfl⟩
  intro t n h2 h4
  rw [starfield_eq]
  simp only
  rw [if_neg (by omega), if_neg (by omega)]

theorem starfield_cycle_witness :
    (starfield boot 1).fb = 0x4000 ∧ (starfield (starfield boot 1) 2).fb = 0 ∧
    (starfield (starfield (starfield (starfield (starfield boot 1) 2) 3) 4) 5).star_state
      = 0 := by
  have h := starfield_cycle boot 1 2 3 4 5 rfl
  exact ⟨by decide, h.2.1, h.2.2.2.2.2.2.2.2.2.2.2⟩

/-! ## The LFSR -/

/-- One step on a non-zero 16-bit register value gives a non-zero value. -/
theorem lfsr_next_ne_zero (l : Nat) (h0 : l ≠ 0) (h16 : l < 65536) : lfsr_next l ≠ 0 := by
  unfold lfsr_next
  simp only
  split
  · intro hx
    have hlt : l >>> 1 < 2 ^ 15 := by
      rw [Nat.shiftRight_eq_div_pow]
      omega
    have hb : (l >>> 1 ^^^ 0xb400).testBit 15 = true := by
      rw [Nat.testBit_xor, Nat.testBit_lt_two_pow hlt]
      decide
    rw [hx] at hb
    simp at hb
  · next hlsb =>
    have hl : l &&& 1 = l % 2 := Nat.and_pow_two_sub_one_eq_mod l 1
    rw [Nat.shiftRight_eq_div_pow]
    omega

/-- One step keeps the register value on 16 bits. -/
theorem lfsr_next_lt (l : Nat) (h16 : l < 65536) : lfsr_next l < 65536 := by
  unfold lfsr_next
  simp only
  have hlt : l >>> 1 < 2 ^ 16 := by
    rw [Nat.shiftRight_eq_div_pow]
    omega
  split
  · exact Nat.xor_lt_two_pow hlt (by decide)
  · exact hlt

/-- Iterated steps from a non-zero 16-bit value stay non-zero and 16-bit. -/
theorem lfsr_iterate_ne_zero (n : Nat) : ∀ l : Nat, l ≠ 0 → l < 65536 →
    lfsr_next^[n] l ≠ 0 ∧ lfsr_next^[n] l < 65536 := by
  induction n with
  | zero => intro l h0 h16; exact ⟨h0, h16⟩
  | succ n ih =>
    intro l h0 h16
    rw [Function.iterate_succ_apply]
    exact ih _ (lfsr_next_ne_zero l h0 h16) (lfsr_next_lt l h16)

/-- Iterating `lfsr_step` on a state iterates `lfsr_next` on its register. -/
theorem lfsr_step_iterate (n : Nat) : ∀ s : State,
    (lfsr_step^[n] s).lfsr = lfsr_next^[n] s.lfsr := by
  induction n with
  | zero => intro s; rfl
  | succ n ih =>
    intro s
    rw [Function.iterate_succ_apply, Function.iterate_succ_apply, ih]
    rfl

/-- A tick keeps the register non-zero and on 16 bits. -/
theorem lfsr_tick (s : State) (hr : InRange s) (h0 : s.lfsr ≠ 0) (h16 : s.lfsr < 65536) :
    (tick s).lfsr ≠ 0 ∧ (tick s).lfsr < 65536 := by
  have hp : s.prog < 7 := hr.1
  by_cases hw : 0 < s.wait
  · rw [tick_waiting s hw]
    exact ⟨h0, h16⟩
  · rw [tick_advance s (by omega)]
    by_cases h6 : s.prog = 6
    · rw [advance_starfield _ (by exact h6), starfield_eq]
      simp only
      split
      · exact lfsr_iterate_ne_zero 4 s.lfsr h0 h16
      · exact ⟨h0, h16⟩
    · rw [advance_eq _ (by simp only; omega)]
      exact ⟨h0, h16⟩

/-- The button handler does not touch the register. -/
theorem lfsr_button_check (s : State) (pinb : Nat) : (button_check s pinb).lfsr = s.lfsr := by
  unfold button_check
  split
  · rfl
  · simp only
    split <;> rfl

/-- The register is non-zero and on 16 bits along every run. -/
theorem lfsr_run (evs : List Event) : ∀ s : State, InRange s → s.lfsr ≠ 0 → s.lfsr < 65536 →
    (run s evs).lfsr ≠ 0 ∧ (run s evs).lfsr < 65536 := by
  induction evs with
  | nil => intro s _ h0 h16; exact ⟨h0, h16⟩
  | cons e evs ih =>
    intro s hr h0 h16
    cases e with
    | tick =>
      obtain ⟨a, b⟩ := lfsr_tick s hr h0 h16
      exact ih (tick s) (inRange_tick s hr) a b
    | button pinb =>
      have e := lfsr_button_check s pinb
      exact ih (button_check s pinb) (inRange_button_check s pinb hr) (by rw [e]; exact h0)
        (by rw [e]; exact h16)

/-- C11: `lfsr_step` maps every non-zero 16-bit register value to a non-zero
16-bit value; so the register is non-zero after any number `n` of steps from
the seed `0xcafe`, and that value is `lfsr_next` iterated `n` times on
`0xcafe`, whatever the rest of the state is; and the register is non-zero in
every state reachable from boot by ticks and `button_check` events. -/
theorem lfsr_never_zero :
    (∀ s : State, s.lfsr ≠ 0 → s.lfsr < 65536 →
      (lfsr_step s).lfsr ≠ 0 ∧ (lfsr_step s).lfsr < 65536) ∧
    boot.lfsr = 0xcafe ∧
    (∀ n : Nat, (lfsr_step^[n] boot).lfsr ≠ 0) ∧
    (∀ (n : Nat) (s : State), s.lfsr = 0xcafe →
      (lfsr_step^[n] s).lfsr = lfsr_next^[n] 0xcafe ∧ (lfsr_step^[n] s).lfsr ≠ 0) ∧
    (∀ s : State, Reachable s → s.lfsr ≠ 0 ∧ s.lfsr < 65536) := by
  refine ⟨?_, rfl, ?_, ?_, ?_⟩
  · intro s h0 h16
    exact ⟨lfsr_next_ne_zero _ h0 h16, lfsr_next_lt _ h16⟩
  · intro n
    rw [lfsr_step_iterate]
    exact (lfsr_iterate_ne_zero n _ (by decide) (by decide)).1
  · intro n s hs
    rw [lfsr_step_iterate, hs]
    exact ⟨rfl, (lfsr_iterate_ne_zero n _ (by decide) (by decide)).1⟩
  · intro s hs
    obtain ⟨evs, rfl⟩ := hs
    exact lfsr_run evs boot inRange_boot (by decide) (by decide)

theorem lfsr_never_zero_witness :
    (lfsr_step { boot with lfsr := 1 }).lfsr ≠ 0 ∧ (lfsr_step^[4] boot).lfsr = 0xcfaf := by
  refine ⟨(lfsr_never_zero.1 { boot with lfsr := 1 } (by decide) (by decide)).1, ?_⟩
  decide



/-! ## Range of the program index and of the shifts -/

/-- C12: in every state reachable from boot by ticks and `button_check`
events `prog < 7 = N_PROGRAMS`; and a recognised press in a state with
`prog = 6` selects `prog = 0`. -/
theorem prog_in_range_and_wraps :
    N_PROGRAMS = 7 ∧
    (∀ s : State, Reachable s → s.prog < N_PROGRAMS) ∧
    (∀ (s : State) (pinb : Nat), s.prog = 6 → pressRecognised s pinb →
      (button_check s pinb).prog = 0) := by
  refine ⟨rfl, fun s hs => (inRange_of_reachable s hs).1, ?_⟩
  intro s pinb h6 hp
  unfold button_check
  rw [if_neg (by rw [hp.1]; decide), if_pos hp.2]
  simp only [h6]
  decide

theorem prog_in_range_and_wraps_witness :
    (run boot sixPresses).prog < 7 ∧
    (button_check { boot with prog := 6, button_state := 8 } 0).prog = 0 :=
  ⟨prog_in_range_and_wraps.2.1 _ ⟨sixPresses, rfl⟩,
    prog_in_range_and_wraps.2.2 { boot with prog := 6, button_state := 8 } 0 rfl (by decide)⟩

/-- C13: in every state reachable from boot by ticks and `button_check`
events `x_shift ≤ 3` and `y_shift ≤ 3`, so the right shift count
`4 - x_shift` of the render loop is between 1 and 4. -/
theorem shifts_in_range (s : State) (h : Reachable s) :
    s.x_shift ≤ 3 ∧ s.y_shift ≤ 3 ∧ 1 ≤ 4 - s.x_shift ∧ 4 - s.x_shift ≤ 4 := by
  obtain ⟨-, -, -, hx, hy⟩ := inRange_of_reachable s h
  exact ⟨hx, hy, by omega, by omega⟩

set_option maxRecDepth 100000 in
theorem shifts_in_range_witness :
    (run boot (pressAndSettle ++ pressAndSettle ++ [Event.tick])).x_shift = 1 ∧
    (run boot (pressAndSettle ++ pressAndSettle ++ [Event.tick])).x_shift ≤ 3 ∧
    (run boot (pressAndSettle ++ pressAndSettle ++ [Event.tick])).y_shift ≤ 3 := by
  have h := shifts_in_range (run boot (pressAndSettle ++ pressAndSettle ++ [Event.tick]))
    ⟨_, rfl⟩
  exact ⟨by decide, h.1, h.2.1⟩

/-! ## Further properties of the render loop and the display scan -/

/-- C14: the framebuffer after the render loop is the same for every previous
framebuffer value: it is a function of the source frame and the two shifts
alone (the four `fb <<= 4` shift every old bit out of the 16-bit `fb`), and
so is the framebuffer after the render block for a program with frames. -/
theorem render_pure (f x_shift y_shift : Nat) :
    (∀ fb fb2 : Nat, render fb f x_shift y_shift = render fb2 f x_shift y_shift) ∧
    (∀ fb : Nat, render fb f x_shift y_shift
      = 4096 * renderRow f x_shift y_shift 0 + 256 * renderRow f x_shift y_shift 1
        + 16 * renderRow f x_shift y_shift 2 + renderRow f x_shift y_shift 3) ∧
    (∀ s t : State, s.prog = t.prog → s.frame = t.frame → s.x_shift = t.x_shift →
      s.y_shift = t.y_shift → 0 < frameCount s.prog →
      (renderBlock s).fb = (renderBlock t).fb) := by
  refine ⟨?_, fun fb => render_eq fb f x_shift y_shift, ?_⟩
  · intro fb fb2
    rw [render_eq, render_eq]
  · intro s t hp hf hx hy hc
    have hsrc : sourceFrame s = sourceFrame t := by
      unfold sourceFrame frameIndex
      rw [hp, hf]
    unfold renderBlock
    rw [if_pos hc, if_pos (by rw [← hp]; exact hc)]
    simp only
    rw [hsrc, hx, hy, render_eq, render_eq]

theorem render_pure_witness :
    (renderBlock { boot with prog := 5, frame := 3, fb := 0xFFFF }).fb
      = (renderBlock { boot with prog := 5, frame := 3, fb := 0 }).fb :=
  (render_pure 0 0 0).2.2 { boot with prog := 5, frame := 3, fb := 0xFFFF }
    { boot with prog := 5, frame := 3, fb := 0 } rfl rfl rfl rfl (by decide)

/-- C16: for a 4-bit row `r` and a shift `k` in 0..3 the render expression
`(r >> (4 - k)) | ((r << k) & 0xF)`, stored in 8 bits, is below 16, its bit
`(i + k) % 4` is bit `i` of `r` for each `i` in 0..3, and at `k = 0` it is
`r`. -/
theorem nibble_rotation (r k : Nat) (hr : r < 16) (hk : k ≤ 3) :
    rotateRow r k = ((r >>> (4 - k)) ||| ((r <<< k) &&& 0xF)) % 256 ∧
    rotateRow r k < 16 ∧
    (∀ i, i ≤ 3 → (rotateRow r k).testBit ((i + k) % 4) = r.testBit i) ∧
    rotateRow r 0 = r :=
  ⟨rfl, rotateRow_lt r k hr,
    fun i hi => rotateRow_testBit r hr k (by omega) i (by omega),
    rotateRow_zero r hr⟩

theorem nibble_rotation_witness :
    ((0b0011 : Nat) < 16 ∧ 3 ≤ 3) ∧ rotateRow 0b0011 3 = 0b1001 ∧ rotateRow 0b0011 3 < 16 := by
  have h := nibble_rotation 0b0011 3 (by decide) (by decide)
  exact ⟨by decide, by decide, h.2.1⟩



/-- The column pattern of the display scan for the four rows. -/
theorem scan_col : ∀ y < 4,
    (((15 ^^^ ((1 <<< y) &&& 0xF)) &&& 0xF) <<< 4) % 256 = 2 ^ 4 * (15 - 2 ^ y) := by
  decide

/-- The scan word in arithmetic form. -/
theorem scanWord_eq (fb y : Nat) (hy : y ≤ 3) :
    scanWord fb y = 16 * (15 - 2 ^ y) + fb / 2 ^ (4 * y) % 16 := by
  have hr : ((fb >>> (4 * y)) &&& 0xF) % 256 = fb / 2 ^ (4 * y) % 16 := by
    rw [and_fifteen, Nat.shiftRight_eq_div_pow]
    omega
  have hlt : fb / 2 ^ (4 * y) % 16 < 2 ^ 4 := Nat.mod_lt _ (by norm_num)
  unfold scanWord
  simp only
  rw [hr, scan_col y (by omega), ← Nat.mul_add_lt_is_or hlt]

/-- The complement pattern `15 - 2 ^ y` has exactly bit `y` clear. -/
theorem scan_col_bits : ∀ y < 4, ∀ j < 4, (15 - 2 ^ y).testBit j = decide (j ≠ y) := by
  decide

/-- C15: for every framebuffer value and every `y` in 0..3 the byte passed to
`set595` is an 8-bit value whose bits 4..7 are all 1 except bit `4 + y`,
which is 0, and whose bits 0..3 are bits `4y .. 4y+3` of `fb`. -/
theorem scan_word_layout (fb y : Nat) (hy : y ≤ 3) :
    scanWord fb y < 256 ∧
    (∀ j, j ≤ 3 → (scanWord fb y).testBit (4 + j) = decide (j ≠ y)) ∧
    (∀ j, j ≤ 3 → (scanWord fb y).testBit j = fb.testBit (4 * y + j)) ∧
    scanWord fb y / 16 = 15 - 2 ^ y ∧
    scanWord fb y % 16 = fb / 2 ^ (4 * y) % 16 := by
  have e := scanWord_eq fb y hy
  have hlt : fb / 2 ^ (4 * y) % 16 < 16 := Nat.mod_lt _ (by norm_num)
  have hc : 15 - 2 ^ y ≤ 15 := Nat.sub_le _ _
  have hhi : scanWord fb y / 16 = 15 - 2 ^ y := by omega
  have hlo : scanWord fb y % 16 = fb / 2 ^ (4 * y) % 16 := by omega
  refine ⟨by omega, ?_, ?_, hhi, hlo⟩
  · intro j hj
    have h := testBit_nibble (scanWord fb y) 1 j (by omega)
    have h16 : scanWord fb y / 2 ^ (4 * 1) % 16 = 15 - 2 ^ y := by
      have : (2 : Nat) ^ (4 * 1) = 16 := by norm_num
      rw [this, hhi]
      omega
    rw [h16] at h
    rw [show 4 + j = 4 * 1 + j from rfl, h]
    exact scan_col_bits y (by omega) j (by omega)
  · intro j hj
    have h := testBit_nibble (scanWord fb y) 0 j (by omega)
    have h16 : scanWord fb y / 2 ^ (4 * 0) % 16 = fb / 2 ^ (4 * y) % 16 := by
      have : (2 : Nat) ^ (4 * 0) = 1 := by norm_num
      rw [this, Nat.div_one, hlo]
    rw [h16] at h
    have h2 : 4 * 0 + j = j := by omega
    rw [h2] at h
    rw [h, ← testBit_nibble fb y j (by omega)]

theorem scan_word_layout_witness :
    (2 : Nat) ≤ 3 ∧ scanWord 0x6996 2 = 0xB9 ∧ scanWord 0x6996 2 < 256 := by
  have h := scan_word_layout 0x6996 2 (by decide)
  exact ⟨by decide, by decide, h.1⟩



/-! ## Starfield flash position -/

/-- C17 (as stated) fails: from boot (`lfsr = 0xcafe`, phase 0) `starfield`
leaves `fb = 0x4000 = 1 << 14`, where 14 is the low nibble of `0xcafe`; the
register after the four steps is `0xcfaf`, whose low nibble is 15. -/
theorem starfield_flash_not_from_new_lfsr :
    boot.star_state = 0 ∧ boot.lfsr = 0xcafe ∧
    (starfield boot 0).lfsr = 0xcfaf ∧ (starfield boot 0).fb = 0x4000 ∧
    ¬ ((starfield boot 0).fb = 1 <<< ((starfield boot 0).lfsr &&& 0xF)) := by
  decide

/-- C17 (amended): a `starfield` call in phase 0 advances the LFSR by exactly
four `lfsr_step` applications and sets `fb` to the single bit `1 << p`, where
`p < 16` is the low 4 bits of the LFSR value before those four steps (the
value the previous flash left, or the seed); calls in phases 1..4 do not
advance the LFSR. -/
theorem starfield_flash_position (s : State) (n : Nat) :
    (s.star_state = 0 →
      (starfield s n).lfsr = (lfsr_step (lfsr_step (lfsr_step (lfsr_step s)))).lfsr ∧
      (starfield s n).fb = 1 <<< (s.lfsr &&& 0xF) ∧ s.lfsr &&& 0xF < 16) ∧
    (1 ≤ s.star_state → s.star_state ≤ 4 → (starfield s n).lfsr = s.lfsr) := by
  constructor
  · intro h0
    rw [starfield_eq]
    simp only
    rw [if_pos h0, if_pos h0, starfield_flash, and_fifteen, Nat.shiftLeft_eq, Nat.one_mul]
    exact ⟨rfl, rfl, Nat.mod_lt _ (by norm_num)⟩
  · intro h1 _
    rw [starfield_eq]
    simp only
    rw [if_neg (by omega)]

theorem starfield_flash_position_witness :
    (starfield boot 0).fb = 1 <<< (0xcafe &&& 0xF) ∧
    (starfield { boot with star_state := 3 } 0).lfsr = 0xcafe :=
  ⟨((starfield_flash_position boot 0).1 rfl).2.1,
    (starfield_flash_position { boot with star_state := 3 } 0).2 (by decide) (by decide)⟩

/-! ## Frame reads -/

/-- The number of frames stored for each program. -/
theorem frames_length_table :
    (program 0).frames.length = 1 ∧ (program 1).frames.length = 1 ∧
    (program 2).frames.length = 1 ∧ (program 3).frames.length = 1 ∧
    (program 4).frames.length = 1 ∧ (program 5).frames.length = 6 ∧
    (program 6).frames.length = 0 := by
  decide

/-- C18: in every state reachable from boot by ticks and `button_check`
events, when the next tick reads a source frame (`wait = 0` and frame count
above 0) the index it reads (0 for a virtual program, `frame` otherwise) is
below the number of frames stored for the selected program, and the tick
renders that frame; a tick on the starfield program reads no frame.  The
stored frame numbers are 1, 1, 1, 1, 1, 6 and 0. -/
theorem frame_reads_in_bounds (s : State) (h : Reachable s) :
    (∀ i, frameRead s = some i →
      i = (if virtualFlag s.prog ≠ 0 then 0 else s.frame) ∧
      i < (program s.prog).frames.length ∧
      (tick s).fb = render s.fb ((program s.prog).frames.getD i 0) s.x_shift s.y_shift) ∧
    (s.prog = 6 → frameRead s = none) ∧
    ((program 0).frames.length = 1 ∧ (program 1).frames.length = 1 ∧
      (program 2).frames.length = 1 ∧ (program 3).frames.length = 1 ∧
      (program 4).frames.length = 1 ∧ (program 5).frames.length = 6 ∧
      (program 6).frames.length = 0) := by
  obtain ⟨hp, hf, -, -, -⟩ := inRange_of_reachable s h
  unfold N_PROGRAMS at hp
  obtain ⟨c0, c1, c2, c3, c4, c5, c6⟩ := frameCount_table
  obtain ⟨v0, v1, v2, v3, v4, v5, -⟩ := virtualFlag_table
  obtain ⟨l0, l1, l2, l3, l4, l5, -⟩ := frames_length_table
  refine ⟨?_, ?_, frames_length_table⟩
  · intro i hi
    unfold frameRead at hi
    split at hi
    · next hc =>
      obtain ⟨hw, hc⟩ := hc
      have hi2 : frameIndex s = i := Option.some.inj hi
      have h6 : s.prog < 6 := by
        by_contra hne
        have : s.prog = 6 := by omega
        rw [this, c6] at hc
        exact absurd hc (by decide)
      refine ⟨hi2.symm, ?_, ?_⟩
      · have hfr := hf hc
        rw [← hi2]
        unfold frameIndex
        have hs : s.prog = 0 ∨ s.prog = 1 ∨ s.prog = 2 ∨ s.prog = 3 ∨ s.prog = 4 ∨ s.prog = 5 := by
          omega
        rcases hs with e | e | e | e | e | e <;>
          (simp only [e, c0, c1, c2, c3, c4, c5] at hfr
           simp [e, v0, v1, v2, v3, v4, v5, l0, l1, l2, l3, l4, l5]
           try exact hfr)
      · rw [tick_advance s hw, advance_eq _ (by simp only; omega), ← hi2]
        rfl
    · exact absurd hi (by simp)
  · intro h6
    unfold frameRead
    rw [h6, c6]
    simp

set_option maxRecDepth 100000 in
theorem frame_reads_in_bounds_witness :
    (run boot (sixPresses.take 130 ++ List.replicate 21 Event.tick)).prog = 5 ∧
    frameRead (run boot (sixPresses.take 130 ++ List.replicate 21 Event.tick)) = some 1 ∧
    1 < (program
      (run boot (sixPresses.take 130 ++ List.replicate 21 Event.tick)).prog).frames.length := by
  have h := frame_reads_in_bounds
    (run boot (sixPresses.take 130 ++ List.replicate 21 Event.tick)) ⟨_, rfl⟩
  have hr :
      frameRead (run boot (sixPresses.take 130 ++ List.replicate 21 Event.tick)) = some 1 := by
    decide
  exact ⟨by decide, hr, (h.1 1 hr).2.1⟩


/-! ## Presses that are not recognised -/

/-- Masking with `_BV(PB3)` gives 0 or 8. -/
theorem and_eight (x : Nat) : x &&& 8 = 0 ∨ x &&& 8 = 8 := by
  have h := Nat.and_two_pow x 3
  cases hb : x.testBit 3 <;> simp [hb] at h <;> omega

/-- With the recorded level low, no press is seen, whatever the pin reads. -/
theorem pressed_of_low (s : State) (pinb : Nat) (h : s.button_state &&& 8 = 0) :
    pressed s pinb &&& 8 = 0 := by
  unfold pressed
  simp only
  rw [Nat.and_assoc, Nat.and_comm (255 ^^^ (pinb &&& 8)) 8, ← Nat.and_assoc, h, Nat.zero_and]

/-- With the pin high, no press is seen, whatever level is recorded. -/
theorem pressed_of_high (s : State) (pinb : Nat) (h : pinb &&& 8 = 8) :
    pressed s pinb &&& 8 = 0 := by
  have h8 : (255 ^^^ 8 : Nat) &&& 8 = 0 := by decide
  unfold pressed
  simp only
  rw [h, Nat.and_assoc, h8, Nat.and_zero]

/-- A recognised press needs the recorded level high and the pin low. -/
theorem pressRecognised_levels (s : State) (pinb : Nat) (h : pressRecognised s pinb) :
    s.button_state &&& 8 = 8 ∧ pinb &&& 8 = 0 := by
  constructor
  · rcases and_eight s.button_state with h0 | h8
    · exact absurd (pressed_of_low s pinb h0) h.2
    · exact h8
  · rcases and_eight pinb with h0 | h8
    · exact h0
    · exact absurd (pressed_of_high s pinb h8) h.2

/-- The fields that `advance` leaves alone. -/
theorem advance_button (s : State) :
    (advance s).prog = s.prog ∧ (advance s).button_state = s.button_state ∧
    (advance s).button_debounce = s.button_debounce := by
  have hr : renderBlock s = { s with fb := (renderBlock s).fb } := by
    unfold renderBlock
    split <;> rfl
  unfold advance
  simp only
  rw [hr]
  simp only
  split
  · exact ⟨rfl, rfl, rfl⟩
  · next u _ =>
    cases u
    · exact ⟨rfl, rfl, rfl⟩
    · exact ⟨rfl, rfl, rfl⟩
    · simp only [callUpdate, starfield_eq]
      exact ⟨trivial, trivial, trivial⟩

/-- A tick leaves `prog` and `button_state` alone and counts the lockout
down. -/
theorem tick_button (s : State) :
    (tick s).prog = s.prog ∧ (tick s).button_state = s.button_state ∧
    (tick s).button_debounce = s.button_debounce - 1 := by
  by_cases hw : 0 < s.wait
  · rw [tick_waiting s hw]
    exact ⟨rfl, rfl, rfl⟩
  · rw [tick_advance s (by omega)]
    exact advance_button _

/-- The same after `n` ticks. -/
theorem ticks_button (n : Nat) : ∀ s : State,
    (ticks n s).prog = s.prog ∧ (ticks n s).button_state = s.button_state ∧
    (ticks n s).button_debounce = s.button_debounce - n := by
  induction n with
  | zero => intro s; exact ⟨rfl, rfl, rfl⟩
  | succ n ih =>
    intro s
    obtain ⟨a1, a2, a3⟩ := ih (tick s)
    obtain ⟨b1, b2, b3⟩ := tick_button s
    rw [ticks]
    refine ⟨a1.trans b1, a2.trans b2, ?_⟩
    rw [a3, b3]
    omega



/-- While every `button_check` reads the pin low, a state with the recorded
level low and no lockout keeps `prog`, the recorded level and the lockout
counter. -/
theorem all_low_run (evs : List Event) : ∀ s : State,
    (∀ p, Event.button p ∈ evs → p &&& 8 = 0) →
    s.button_state = 0 → s.button_debounce = 0 →
    (run s evs).prog = s.prog ∧ (run s evs).button_state = 0 ∧
    (run s evs).button_debounce = 0 := by
  induction evs with
  | nil => intro s _ hb hd; exact ⟨rfl, hb, hd⟩
  | cons e evs ih =>
    intro s hlow hb hd
    have htail : ∀ p, Event.button p ∈ evs → p &&& 8 = 0 :=
      fun p hp => hlow p (List.mem_cons_of_mem _ hp)
    cases e with
    | tick =>
      obtain ⟨b1, b2, b3⟩ := tick_button s
      obtain ⟨a1, a2, a3⟩ := ih (tick s) htail (by rw [b2]; exact hb) (by rw [b3, hd])
      exact ⟨a1.trans b1, a2, a3⟩
    | button pinb =>
      have hp0 : pinb &&& 8 = 0 := hlow pinb (List.mem_cons_self _ _)
      have hnot : ¬ pressRecognised s pinb :=
        fun hr => hr.2 (pressed_of_low s pinb (by rw [hb]; rfl))
      have e := button_check_unrecognised s pinb hnot
      rw [if_neg (by omega), hp0] at e
      obtain ⟨a1, a2, a3⟩ := ih (button_check s pinb) htail (by rw [e]) (by rw [e]; exact hd)
      have b1 : (button_check s pinb).prog = s.prog := by rw [e]
      exact ⟨a1.trans b1, a2, a3⟩

/-- C19: in the boot state (`button_state = 0`, `button_debounce = 0`,
`prog = 0`) a `button_check` call that reads the pin low changes nothing
(`prog`, `wait`, `frame`, `x_shift`, `y_shift`, `button_debounce` and the
rest keep their values).  A press is recognised only in a state whose
recorded level is high, and as long as every `button_check` call since boot
has read the pin low, `prog` is still 0, the recorded level is still low and
no lockout has started. -/
theorem first_press_unrecognised :
    boot.button_state = 0 ∧ boot.button_debounce = 0 ∧ boot.prog = 0 ∧
    (∀ pinb, pinb &&& 8 = 0 → button_check boot pinb = boot) ∧
    (∀ (s : State) (pinb : Nat), pressRecognised s pinb → s.button_state &&& 8 = 8) ∧
    (∀ evs : List Event, (∀ p, Event.button p ∈ evs → p &&& 8 = 0) →
      (run boot evs).prog = 0 ∧ (run boot evs).button_state = 0 ∧
      (run boot evs).button_debounce = 0) := by
  refine ⟨rfl, rfl, rfl, ?_, fun s pinb h => (pressRecognised_levels s pinb h).1, ?_⟩
  · intro pinb hp
    have hnot : ¬ pressRecognised boot pinb :=
      fun hr => hr.2 (pressed_of_low boot pinb (by decide))
    rw [button_check_unrecognised boot pinb hnot, hp]
    rfl
  · intro evs hlow
    exact all_low_run evs boot hlow rfl rfl

theorem first_press_unrecognised_witness :
    button_check boot 0 = boot ∧
    (run boot [Event.button 0, Event.tick, Event.button 0xF7, Event.tick]).prog = 0 := by
  refine ⟨first_press_unrecognised.2.2.2.1 0 (by decide), ?_⟩
  refine (first_press_unrecognised.2.2.2.2.2 _ ?_).1
  intro p hp
  simp at hp
  rcases hp with rfl | rfl <;> decide

/-- C20: from a state with the recorded level low and `button_debounce = 30`
(a press has just been recognised), let the main loop run `j < 30` times, let
`button_check` be called (the lockout counter is `30 - j > 0`, so the call is
dropped whatever the pin reads, in particular a release), and let the main
loop run `30 - j` more times.  Then the lockout is over, the recorded level
is still the low one, and the next `button_check` call that reads the pin
low recognises no press: it changes only `button_state` (to 0), so `prog` is
what it was and no new lockout starts. -/
theorem release_in_lockout_hides_press (s : State) (j pRelease pPress : Nat)
    (hb : s.button_state &&& 8 = 0) (hd : s.button_debounce = 30) (hj : j < 30)
    (hl : pPress &&& 8 = 0) :
    0 < (ticks j s).button_debounce ∧
    button_check (ticks j s) pRelease = ticks j s ∧
    (ticks (30 - j) (button_check (ticks j s) pRelease)).button_debounce = 0 ∧
    (ticks (30 - j) (button_check (ticks j s) pRelease)).button_state = s.button_state ∧
    (ticks (30 - j) (button_check (ticks j s) pRelease)).prog = s.prog ∧
    ¬ pressRecognised (ticks (30 - j) (button_check (ticks j s) pRelease)) pPress ∧
    button_check (ticks (30 - j) (button_check (ticks j s) pRelease)) pPress
      = { ticks (30 - j) (button_check (ticks j s) pRelease) with button_state := 0 } ∧
    (button_check (ticks (30 - j) (button_check (ticks j s) pRelease)) pPress).prog = s.prog ∧
    (button_check (ticks (30 - j) (button_check (ticks j s) pRelease)) pPress).button_debounce
      = 0 := by
  obtain ⟨a1, a2, a3⟩ := ticks_button j s
  have hpos : 0 < (ticks j s).button_debounce := by rw [a3, hd]; omega
  have hdrop : button_check (ticks j s) pRelease = ticks j s := by
    unfold button_check
    rw [if_pos hpos]
  obtain ⟨b1, b2, b3⟩ := ticks_button (30 - j) (ticks j s)
  rw [hdrop]
  have hd0 : (ticks (30 - j) (ticks j s)).button_debounce = 0 := by
    rw [b3, a3, hd]
    omega
  have hbs : (ticks (30 - j) (ticks j s)).button_state = s.button_state := b2.trans a2
  have hpr : (ticks (30 - j) (ticks j s)).prog = s.prog := b1.trans a1
  have hnot : ¬ pressRecognised (ticks (30 - j) (ticks j s)) pPress :=
    fun hr => hr.2 (pressed_of_low _ pPress (by rw [hbs]; exact hb))
  have e := button_check_unrecognised _ pPress hnot
  rw [if_neg (by omega), hl] at e
  refine ⟨hpos, rfl, hd0, hbs, hpr, hnot, e, ?_, ?_⟩
  · rw [e]
    exact hpr
  · rw [e]
    exact hd0

theorem release_in_lockout_hides_press_witness :
    (button_check (ticks (30 - 10) (button_check (ticks 10
      (button_check { boot with button_state := 8 } 0)) 8)) 0).prog = 1 ∧
    (button_check (ticks (30 - 10) (button_check (ticks 10
      (button_check { boot with button_state := 8 } 0)) 8)) 0).button_debounce = 0 := by
  have h := release_in_lockout_hides_press (button_check { boot with button_state := 8 } 0)
    10 8 0 (by decide) (by decide) (by decide) (by decide)
  exact ⟨h.2.2.2.2.2.2.2.1, h.2.2.2.2.2.2.2.2⟩

end LedMatrix
